import Mathlib

/-!
# The scripting bridge of mpv (`core/mp_lua.c`) and the key fifo (`core/mp_fifo.c`)

A shallow embedding of the C functions of `core/mp_lua.c` and `core/mp_fifo.c`,
followed by theorems about them.

Conventions of the embedding.

* A C string (`const char *`) is a Lean `String`; `NULL` is `none` of an `Option String`.
  `strcmp` and `talloc_strdup` are string comparison and the identity; they agree with the C
  functions on every string without an embedded NUL, which is every C string.
* Calls into collaborators that only have an effect (`vo_osd_changed`, `mp_input_feed_key`,
  `mp_msg`, `lua_close`) are recorded, oldest first, in a list kept in the state.
* Collaborators that compute something and are not part of these files (`m_property_do`,
  `mp_input_parse_cmd`, the chapter table, the script interpreter itself) are parameters.
* `int` and `unsigned int` are 32 bits wide; `double` is IEEE 754 binary64 with the default
  rounding, to nearest with ties to even.
-/

namespace Mpv

/-! ## On-screen display text: `set_osd_ass` -/

/-- OSD object kinds handed to `vo_osd_changed`; the bridge only uses `OSDTYPE_EXTERNAL`. -/
inductive OsdType where
  | OSDTYPE_EXTERNAL
  deriving DecidableEq, Repr

/-- The part of `struct osd_state` the bridge touches: the `external` text (`NULL` is `none`),
together with the record of the `vo_osd_changed` calls made so far. -/
structure osd_state where
  external : Option String
  changed : List OsdType
  deriving DecidableEq, Repr

/-- Modelled from the spec: the change-notification call of the OSD object
(`vo_osd_changed`, declared in `sub/sub.h`); a call is recorded in `changed`. -/
def vo_osd_changed (osd : osd_state) (ty : OsdType) : osd_state :=
  { osd with changed := osd.changed ++ [ty] }

/-- C `strcmp`, of which only the sign matters. -/
def strcmp (a b : String) : Int :=
  if a = b then 0 else if a < b then -1 else 1

/-- C function `set_osd_ass` with `text` the string `luaL_checkstring(L, 1)` returned.
The result is the OSD state afterwards and the number of Lua results (`return 0`). -/
def set_osd_ass (osd : osd_state) (text : String) : osd_state × Nat :=
  let differs : Bool :=
    match osd.external with
    | none => true
    | some cur => strcmp cur text != 0
  if differs then
    (vo_osd_changed { osd with external := some text } OsdType.OSDTYPE_EXTERNAL, 0)
  else
    (osd, 0)

/-! ## Lua values -/

/-- An IEEE double that is only passed along, kept as its bit pattern. -/
structure lua_Number where
  bits : Nat
  deriving DecidableEq, Repr

/-- The native functions of `mp_lua.c` that are installed in the `mp` table. -/
inductive HostFn where
  | send_command
  | property_list
  | property_string
  | set_osd_ass
  | get_osd_resolution
  | get_mouse_pos
  | get_timer
  | get_chapter_list
  deriving DecidableEq, Repr

/-- Lua values as far as the bridge handles them. Tables and script functions are references.
Numbers that come from `lua_pushinteger` are kept apart from those of `lua_pushnumber`; no
function embedded here compares one with the other. The C closures of `mp_lua.c` capture
integers only, so the upvalues of a C closure are integers. -/
inductive LuaValue where
  | nil
  | number (d : lua_Number)
  | integer (i : Int)
  | string (s : String)
  | table (ref : Nat)
  | function (ref : Nat)
  | cclosure (f : HostFn) (upvalues : List Int)
  | lightuserdata (p : Nat)
  deriving DecidableEq, Repr

/-! ## Properties: `property_get` and `property_get_string` -/

/-- The two actions of `m_property.h` that `property_string` asks for. -/
inductive m_property_action where
  | M_PROPERTY_GET_STRING
  | M_PROPERTY_PRINT
  deriving DecidableEq, Repr

/-- What a host function leaves for the interpreter: the values it pushed, oldest first, and
the count it returned; the interpreter takes the last `nresults` pushed values as results. -/
structure HostReturn where
  pushed : List LuaValue
  nresults : Nat
  deriving DecidableEq, Repr

/-- The results the interpreter hands to the script. -/
def HostReturn.results (r : HostReturn) : List LuaValue :=
  r.pushed.drop (r.pushed.length - r.nresults)

/-- C function `property_string`. `m_property_do name action` stands for
`m_property_do(props, name, action, &result, mpctx)` and gives the returned status and what
it left in `result` (`none` when `result` is still `NULL`). `upvalue` is
`lua_tointeger(L, lua_upvalueindex(1))`. -/
def property_string (m_property_do : String → m_property_action → Int × Option String)
    (upvalue : Int) (name : String) : HostReturn :=
  let type := if upvalue ≠ 0 then m_property_action.M_PROPERTY_PRINT
              else m_property_action.M_PROPERTY_GET_STRING
  let (status, result) := m_property_do name type
  match decide (status ≥ 0), result with
  | true, some r => ⟨[LuaValue.string r], 1⟩
  | _, _ =>
    if type = m_property_action.M_PROPERTY_PRINT then ⟨[LuaValue.string ""], 1⟩
    else ⟨[], 0⟩

/-- The closure `add_functions` installs as `mp.property_get`: upvalue `0`. -/
def property_get (m_property_do : String → m_property_action → Int × Option String)
    (name : String) : HostReturn :=
  property_string m_property_do 0 name

/-- The closure `add_functions` installs as `mp.property_get_string`: upvalue `1`. -/
def property_get_string (m_property_do : String → m_property_action → Int × Option String)
    (name : String) : HostReturn :=
  property_string m_property_do 1 name

/-! ## Commands: `send_command` -/

/-- The command queue of `struct input_ctx`, oldest command first. -/
structure input_ctx (Cmd : Type) where
  cmd_queue : List Cmd

/-- Modelled from the spec: the command queue's `enqueue(CommandRecord)`
(`mp_input_queue_cmd`, declared in `input/input.h`); the command goes to the end of the queue. -/
def mp_input_queue_cmd {Cmd : Type} (ictx : input_ctx Cmd) (cmd : Cmd) : input_ctx Cmd :=
  { ictx with cmd_queue := ictx.cmd_queue ++ [cmd] }

/-- How a host function ends: it returns a count of results or raises a Lua error. -/
inductive HostOutcome where
  | returns (nresults : Nat)
  | raises (msg : String)
  deriving DecidableEq, Repr

/-- C function `send_command` with `s` the string `luaL_checkstring(L, 1)` returned.
`mp_input_parse_cmd str loc` is the command parser (`none` is `NULL`). `luaL_error` does not
return, so nothing after it runs. -/
def send_command {Cmd : Type} (mp_input_parse_cmd : String → String → Option Cmd)
    (ictx : input_ctx Cmd) (s : String) : input_ctx Cmd × HostOutcome :=
  match mp_input_parse_cmd s "<lua>" with
  | none => (ictx, HostOutcome.raises "error parsing command")
  | some cmd => (mp_input_queue_cmd ictx cmd, HostOutcome.returns 0)

/-! ## Elapsed time: `get_timer` -/

/-- Modelled from the spec: the monotonic millisecond clock (`GetTimerMS`, declared in
`osdep/timer.h`). `t` is the number of milliseconds the clock has counted; the program receives
it as an `unsigned int`. -/
def GetTimerMS (t : Nat) : Nat :=
  t % 4294967296

/-- Subtraction of two `unsigned int` values. -/
def unsigned_sub (a b : Nat) : Nat :=
  (((a : Int) - (b : Int)) % 4294967296).toNat

/-- The number `get_timer` pushes: `(GetTimerMS() - mpctx->lua_ctx->start_time) / 1000.0`,
with `now` the value `GetTimerMS()` returned. The quotient is exact here; the rounding of the
double division is monotone and is left out. -/
def get_timer (start_time now : Nat) : ℚ :=
  (unsigned_sub now start_time : ℚ) / 1000

/-! ## C `double`: IEEE 754 binary64, round to nearest, ties to even -/

/-- A C `double`, given by its 64 bits: sign, 11 bits of exponent, 52 bits of fraction. -/
structure Double where
  bits : Nat
  deriving DecidableEq, Repr

/-- The sign bit of a double. -/
def Double.sign (d : Double) : Bool :=
  d.bits / 9223372036854775808 % 2 = 1

/-- The exponent field of a double. -/
def Double.expo (d : Double) : Nat :=
  d.bits / 4503599627370496 % 2048

/-- The fraction field of a double. -/
def Double.frac (d : Double) : Nat :=
  d.bits % 4503599627370496

/-- Not a number: exponent field all ones, fraction not zero. -/
def Double.isNaN (d : Double) : Bool :=
  d.expo = 2047 ∧ d.frac ≠ 0

/-- Infinite: exponent field all ones, fraction zero. -/
def Double.isInf (d : Double) : Bool :=
  d.expo = 2047 ∧ d.frac = 0

/-- The integer significand `m` of a finite double, whose magnitude is `m * 2 ^ scale`. -/
def Double.mant (d : Double) : Nat :=
  if d.expo = 0 then d.frac else 4503599627370496 + d.frac

/-- The power of two that scales the significand of a finite double. -/
def Double.scale (d : Double) : Int :=
  if d.expo = 0 then -1074 else (d.expo : Int) - 1075

/-- The real number a finite double stands for. -/
def Double.value (d : Double) : ℚ :=
  (if d.sign then -1 else 1) * (d.mant : ℚ) * (2 : ℚ) ^ d.scale

/-- The quiet NaN the operations return. -/
def Double.nan : Double := ⟨9221120237041090560⟩

/-- An infinity with the given sign. -/
def Double.inf (neg : Bool) : Double :=
  ⟨(if neg then 9223372036854775808 else 0) + 9218868437227405312⟩

/-- A zero with the given sign. -/
def Double.zero (neg : Bool) : Double :=
  ⟨if neg then 9223372036854775808 else 0⟩

/-- The position of the highest set bit of `n` (`0` for `n < 2`); `fuel` bounds the rounds. -/
def floor_log2_fuel : Nat → Nat → Nat
  | 0, _ => 0
  | fuel + 1, n => if 2 ≤ n then floor_log2_fuel fuel (n / 2) + 1 else 0

/-- The position of the highest set bit of `n`. -/
def floor_log2 (n : Nat) : Nat :=
  floor_log2_fuel n n

/-- Multiplication of a natural number by a power of two with a non-negative exponent. -/
def shl (n : Nat) (k : Int) : Nat :=
  n <<< k.toNat

/-- The double nearest to `± (p / q) * 2 ^ e`, ties to the even significand; overflow gives an
infinity. `q` is not zero. -/
def Double.round (neg : Bool) (p q : Nat) (e : Int) : Double :=
  if p = 0 then Double.zero neg
  else
    -- floor of the binary logarithm of p / q
    let g : Int := (floor_log2 p : Int) - (floor_log2 q : Int)
    let f : Int := if shl q g ≤ shl p (-g) then g else g - 1
    -- the exponent of the last place kept: 53 bits, or the subnormal spacing
    let qe : Int := max (f + e - 52) (-1074)
    let s : Int := e - qe
    let num := shl p s
    let den := shl q (-s)
    let m0 := num / den
    let r := num % den
    let m := if den < 2 * r ∨ (2 * r = den ∧ m0 % 2 = 1) then m0 + 1 else m0
    let bits := (qe + 1074).toNat * 4503599627370496 + m
    if 9218868437227405312 ≤ bits then Double.inf neg
    else ⟨(if neg then 9223372036854775808 else 0) + bits⟩

/-- Conversion of an `int` to `double`; it is exact. -/
def Double.ofInt (i : Int) : Double :=
  Double.round (decide (i < 0)) i.natAbs 1 0

/-- C `a - b` on `double`. -/
def Double.sub (a b : Double) : Double :=
  if a.isNaN ∨ b.isNaN then Double.nan
  else if a.isInf then
    if b.isInf ∧ a.sign = b.sign then Double.nan else Double.inf a.sign
  else if b.isInf then Double.inf (!b.sign)
  else
    let e : Int := min a.scale b.scale
    let x : Int := (if a.sign then -1 else 1) * (shl a.mant (a.scale - e) : Int)
    let y : Int := (if b.sign then -1 else 1) * (shl b.mant (b.scale - e) : Int)
    if x - y = 0 then Double.zero (a.mant = 0 ∧ b.mant = 0 ∧ a.sign ∧ !b.sign)
    else Double.round (decide (x - y < 0)) (x - y).natAbs 1 e

/-- C `a / b` on `double`. -/
def Double.div (a b : Double) : Double :=
  if a.isNaN ∨ b.isNaN then Double.nan
  else if a.isInf then
    if b.isInf then Double.nan else Double.inf (a.sign != b.sign)
  else if b.isInf then Double.zero (a.sign != b.sign)
  else if b.mant = 0 then
    if a.mant = 0 then Double.nan else Double.inf (a.sign != b.sign)
  else Double.round (a.sign != b.sign) a.mant b.mant (a.scale - b.scale)

/-- The place of a double that is not a NaN in the order of the extended reals: the two zeros
share a place. -/
def Double.rank (d : Double) : Int :=
  if d.sign then -((d.bits % 9223372036854775808 : Nat) : Int)
  else ((d.bits % 9223372036854775808 : Nat) : Int)

/-- C `a < b` on `double`: false when one of the two is a NaN. -/
def Double.lt (a b : Double) : Bool :=
  !a.isNaN && !b.isNaN && decide (a.rank < b.rank)

/-- The constant `1000.0`. -/
def Double.thousand : Double := ⟨4652007308841189376⟩

/-! ## Key fifo: `mplayer_put_key` -/

/-- The two's complement bit pattern of an `int`. -/
def bits32 (a : Int) : Nat :=
  (a % 4294967296).toNat

/-- The `int` with a given bit pattern. -/
def ofBits32 (n : Nat) : Int :=
  if n < 2147483648 then (n : Int) else (n : Int) - 4294967296

/-- C `a & b` on `int`. -/
def int_and (a b : Int) : Int :=
  ofBits32 (bits32 a &&& bits32 b)

/-- C `~a` on `int`. -/
def int_not (a : Int) : Int :=
  ofBits32 (4294967295 - bits32 a)

/-- The constants of `input/keycodes.h` that `mp_fifo.c` uses. -/
structure KeyCodes where
  MP_KEY_STATE_DOWN : Int
  MP_MOUSE_BTN0 : Int
  MP_MOUSE_BTN2 : Int
  MP_MOUSE_BTN0_DBL : Int
  MP_MOUSE_BTN_DBL_END : Int
  deriving DecidableEq, Repr

/-- C `struct mp_fifo`: `doubleclick_time` is `fifo->opts->doubleclick_time`, `input` the
record of the codes given to `mp_input_feed_key(fifo->input, _)`, oldest first. Times are
seconds. -/
structure mp_fifo where
  doubleclick_time : Int
  input : List Int
  last_key_down : Int
  last_down_time : Double
  deriving DecidableEq, Repr

/-- Modelled from the spec: the command queue side of the key detector
(`mp_input_feed_key`, declared in `input/input.h`); a fed code is recorded in `input`. -/
def mp_input_feed_key (fifo : mp_fifo) (code : Int) : mp_fifo :=
  { fifo with input := fifo.input ++ [code] }

/-- C function `put_double`. -/
def put_double (k : KeyCodes) (fifo : mp_fifo) (code : Int) : mp_fifo :=
  if code ≥ k.MP_MOUSE_BTN0 ∧ code ≤ k.MP_MOUSE_BTN2 then
    mp_input_feed_key fifo (code - k.MP_MOUSE_BTN0 + k.MP_MOUSE_BTN0_DBL)
  else fifo

/-- C function `mplayer_put_key`; `now` is the value `mp_time_sec()` returned. In
`doubleclick_time / 1000.0` the `int` is converted to `double` first. -/
def mplayer_put_key (k : KeyCodes) (now : Double) (fifo : mp_fifo) (code : Int) : mp_fifo :=
  let doubleclick_time := fifo.doubleclick_time
  if doubleclick_time ≠ 0
      ∧ int_and code (int_not k.MP_KEY_STATE_DOWN) ≥ k.MP_MOUSE_BTN0_DBL
      ∧ int_and code (int_not k.MP_KEY_STATE_DOWN) < k.MP_MOUSE_BTN_DBL_END then
    fifo
  else
    let fifo1 := mp_input_feed_key fifo code
    if int_and code k.MP_KEY_STATE_DOWN ≠ 0 then
      let code1 := int_and code (int_not k.MP_KEY_STATE_DOWN)
      let fifo2 :=
        if fifo1.last_key_down = code1
            ∧ Double.lt (Double.sub now fifo1.last_down_time)
                (Double.div (Double.ofInt doubleclick_time) Double.thousand) then
          put_double k fifo1 code1
        else fifo1
      { fifo2 with last_key_down := code1, last_down_time := now }
    else fifo1

/-- Key codes with the layout of `input/keycodes.h`, used for concrete runs. -/
def sampleKeyCodes : KeyCodes :=
  { MP_KEY_STATE_DOWN := 536870912
    MP_MOUSE_BTN0 := 2097312
    MP_MOUSE_BTN2 := 2097314
    MP_MOUSE_BTN0_DBL := 2097344
    MP_MOUSE_BTN_DBL_END := 2097364 }

/-! ## The Lua C API, as far as `mp_lua.c` uses it (Lua 5.1 reference manual) -/

/-- A Lua table: its entries, no key twice. -/
abbrev LuaTable := List (LuaValue × LuaValue)

/-- Reading `t[k]` without metamethods: `nil` when the key is missing. -/
def LuaTable.get (t : LuaTable) (k : LuaValue) : LuaValue :=
  match t.find? (fun e => e.1 = k) with
  | some e => e.2
  | none => LuaValue.nil

/-- Writing `t[k] = v` without metamethods: storing `nil` removes the key. -/
def LuaTable.set (t : LuaTable) (k v : LuaValue) : LuaTable :=
  let others := t.filter (fun e => e.1 ≠ k)
  if v = LuaValue.nil then others else others ++ [(k, v)]

/-- What script code can reach and change: the tables (a reference is a position in `heap`),
the registry and the table of globals. -/
structure Interp where
  heap : List LuaTable
  registry : LuaTable
  globals : LuaTable
  deriving DecidableEq, Repr

/-- A `lua_State`. `handle` is the address `luaL_newstate` returned. `stack` is the stack of
the running C function, top first: index `-1` is the head, index `1` the last element.
`called` records the calls the bridge makes into script code (function and arguments),
`msgs` the lines `report_error` gives to `mp_msg`; both oldest first. -/
structure lua_State where
  handle : Nat
  stack : List LuaValue
  mem : Interp
  called : List (LuaValue × List LuaValue)
  msgs : List String
  deriving DecidableEq, Repr

/-- Where a table lives. -/
inductive TableLoc where
  | registry
  | globals
  | heap (ref : Nat)
  deriving DecidableEq, Repr

/-- The behaviour of the interpreter that the bridge uses as a black box. `call f args m` runs
the value `f` on `args` and gives the memory afterwards and the error object if an error was
raised; `loadstring` and `loadfile` compile a chunk and give the compiled function or the
error message; `openlibs` is `luaL_openlibs`; the last two are the conversion of a number to a
string done by `lua_tostring`. `index_event loc k m` is what the `index` event does for a key
`k` that the table at `loc` does not hold: `none` when the table has no `__index` metamethod,
so that the value is `nil`; otherwise the memory after the metamethod was followed or run,
and the value it gave or the error it raised. -/
structure LuaEnv where
  call : LuaValue → List LuaValue → Interp → Interp × Option LuaValue
  index_event : TableLoc → LuaValue → Interp → Option (Interp × Except LuaValue LuaValue)
  loadstring : String → Interp → Interp × Except LuaValue LuaValue
  loadfile : String → Interp → Interp × Except LuaValue LuaValue
  openlibs : Interp → Interp
  fmt_number : lua_Number → String
  fmt_integer : Int → String

/-- Pseudo-index of the registry. -/
def LUA_REGISTRYINDEX : Int := -10000

/-- Pseudo-index of the table of globals. -/
def LUA_GLOBALSINDEX : Int := -10002

/-- Status of a call that raised an error. -/
def LUA_ERRRUN : Int := 2

/-- Status of a chunk that did not compile. -/
def LUA_ERRSYNTAX : Int := 3

/-- Lua API `lua_gettop`. -/
def lua_gettop (L : lua_State) : Int :=
  (L.stack.length : Int)

/-- Distance from the top of the slot an acceptable stack index names. -/
def depth (L : lua_State) (idx : Int) : Option Nat :=
  if idx < 0 then
    if (-idx).toNat ≤ L.stack.length then some ((-idx).toNat - 1) else none
  else if 0 < idx ∧ idx.toNat ≤ L.stack.length then some (L.stack.length - idx.toNat)
  else none

/-- The value at a stack index. -/
def stackAt (L : lua_State) (idx : Int) : Option LuaValue :=
  match depth L idx with
  | some d => L.stack[d]?
  | none => none

/-- The table an index names: a pseudo-index, or a stack slot holding a live table. -/
def tableLoc (L : lua_State) (idx : Int) : Option TableLoc :=
  if idx = LUA_REGISTRYINDEX then some TableLoc.registry
  else if idx = LUA_GLOBALSINDEX then some TableLoc.globals
  else
    match stackAt L idx with
    | some (LuaValue.table ref) =>
      if ref < L.mem.heap.length then some (TableLoc.heap ref) else none
    | _ => none

/-- The content of a table. -/
def readTable (m : Interp) : TableLoc → Option LuaTable
  | TableLoc.registry => some m.registry
  | TableLoc.globals => some m.globals
  | TableLoc.heap ref => m.heap[ref]?

/-- Replacing the content of a table. -/
def writeTable (m : Interp) : TableLoc → LuaTable → Interp
  | TableLoc.registry, t => { m with registry := t }
  | TableLoc.globals, t => { m with globals := t }
  | TableLoc.heap ref, t => { m with heap := m.heap.set ref t }

/-- Pushing a value. -/
def push (L : lua_State) (v : LuaValue) : lua_State :=
  { L with stack := v :: L.stack }

/-- Lua API `lua_newtable`: a fresh empty table. -/
def lua_newtable (L : lua_State) : lua_State :=
  { L with stack := LuaValue.table L.mem.heap.length :: L.stack
           mem := { L.mem with heap := L.mem.heap ++ [[]] } }

/-- Lua API `lua_pushnumber`. -/
def lua_pushnumber (L : lua_State) (d : lua_Number) : lua_State :=
  push L (LuaValue.number d)

/-- Lua API `lua_pushinteger`. -/
def lua_pushinteger (L : lua_State) (i : Int) : lua_State :=
  push L (LuaValue.integer i)

/-- Lua API `lua_pushstring`. -/
def lua_pushstring (L : lua_State) (s : String) : lua_State :=
  push L (LuaValue.string s)

/-- Lua API `lua_pushlightuserdata`. -/
def lua_pushlightuserdata (L : lua_State) (p : Nat) : lua_State :=
  push L (LuaValue.lightuserdata p)

/-- Lua API `lua_pushcfunction`. -/
def lua_pushcfunction (L : lua_State) (f : HostFn) : lua_State :=
  push L (LuaValue.cclosure f [])

/-- The integers on top of the stack, top first, when there are `n` of them. -/
def popIntegers : Nat → List LuaValue → Option (List Int × List LuaValue)
  | 0, st => some ([], st)
  | n + 1, LuaValue.integer i :: st =>
    match popIntegers n st with
    | some (is, rest) => some (i :: is, rest)
    | none => none
  | _ + 1, _ => none

/-- Lua API `lua_pushcclosure`: the `n` values on top become the upvalues, first pushed first. -/
def lua_pushcclosure (L : lua_State) (f : HostFn) (n : Nat) : Option lua_State :=
  match popIntegers n L.stack with
  | some (is, rest) => some { L with stack := LuaValue.cclosure f is.reverse :: rest }
  | none => none

/-- Lua API `lua_pushvalue`. -/
def lua_pushvalue (L : lua_State) (idx : Int) : Option lua_State :=
  match stackAt L idx with
  | some v => some (push L v)
  | none => none

/-- Lua API `lua_pop`. -/
def lua_pop (L : lua_State) (n : Nat) : Option lua_State :=
  if n ≤ L.stack.length then some { L with stack := L.stack.drop n } else none

/-- Lua API `lua_insert`: the top value moves to the given index, the values above it shift up. -/
def lua_insert (L : lua_State) (idx : Int) : Option lua_State :=
  match depth L idx, L.stack with
  | some d, v :: rest => some { L with stack := rest.take d ++ v :: rest.drop d }
  | _, _ => none

/-- Lua API `lua_setfield`: `t[k] = v` with `t` the table at `idx` and `v` the top, which is
popped. The write is direct: `mp_lua.c` uses it on tables without a metatable only, which are
the tables it has just created, the registry, and the globals before any script has run. -/
def lua_setfield (L : lua_State) (idx : Int) (k : String) : Option lua_State :=
  match tableLoc L idx, L.stack with
  | some loc, v :: rest =>
    match readTable L.mem loc with
    | some t =>
      some { L with stack := rest
                    mem := writeTable L.mem loc (t.set (LuaValue.string k) v) }
    | none => none
  | _, _ => none

/-- Lua API `lua_getfield`: pushes `t[k]` with `t` the table at `idx`. A key the table holds
is read directly; for a key it does not hold the `index` event decides: without an `__index`
metamethod the value is `nil`, with one the value is what the metamethod gives, and an error
the metamethod raises leaves the function through `longjmp`. The second component is that
error, when there is one. -/
def lua_getfield (env : LuaEnv) (L : lua_State) (idx : Int) (k : String) :
    Option (lua_State × Option LuaValue) :=
  match tableLoc L idx with
  | some loc =>
    match readTable L.mem loc with
    | some t =>
      if t.get (LuaValue.string k) ≠ LuaValue.nil then
        some (push L (t.get (LuaValue.string k)), none)
      else
        match env.index_event loc (LuaValue.string k) L.mem with
        | none => some (push L LuaValue.nil, none)
        | some (m, Except.ok v) => some (push { L with mem := m } v, none)
        | some (m, Except.error e) => some ({ L with mem := m }, some e)
    | none => none
  | none => none

/-- Lua API `lua_setglobal`. -/
def lua_setglobal (L : lua_State) (k : String) : Option lua_State :=
  lua_setfield L LUA_GLOBALSINDEX k

/-- Lua API `lua_getglobal`. -/
def lua_getglobal (env : LuaEnv) (L : lua_State) (k : String) :
    Option (lua_State × Option LuaValue) :=
  lua_getfield env L LUA_GLOBALSINDEX k

/-- Lua API `lua_settable`: `t[k] = v` with `v` the top and `k` just below it; both are
popped. The write is direct, as for `lua_setfield`. -/
def lua_settable (L : lua_State) (idx : Int) : Option lua_State :=
  match tableLoc L idx, L.stack with
  | some loc, v :: k :: rest =>
    if k = LuaValue.nil then none
    else
      match readTable L.mem loc with
      | some t => some { L with stack := rest, mem := writeTable L.mem loc (t.set k v) }
      | none => none
  | _, _ => none

/-- Lua API `lua_isnil`. -/
def lua_isnil (L : lua_State) (idx : Int) : Bool :=
  stackAt L idx = some LuaValue.nil

/-- Lua API `lua_tostring` on a value: a string, a number converted, and `NULL` for anything else. -/
def tostring (env : LuaEnv) : LuaValue → Option String
  | LuaValue.string s => some s
  | LuaValue.number d => some (env.fmt_number d)
  | LuaValue.integer i => some (env.fmt_integer i)
  | _ => none

/-- Lua API `lua_tostring` at a stack index. -/
def lua_tostring (env : LuaEnv) (L : lua_State) (idx : Int) : Option String :=
  match stackAt L idx with
  | some v => tostring env v
  | none => none

/-- Lua API `luaL_loadstring`: pushes the compiled chunk or the error message. -/
def luaL_loadstring (env : LuaEnv) (L : lua_State) (s : String) : lua_State × Int :=
  match env.loadstring s L.mem with
  | (m, Except.ok f) => ({ L with stack := f :: L.stack, mem := m }, 0)
  | (m, Except.error e) => ({ L with stack := e :: L.stack, mem := m }, LUA_ERRSYNTAX)

/-- Lua API `luaL_loadfile`: pushes the compiled chunk or the error message. -/
def luaL_loadfile (env : LuaEnv) (L : lua_State) (fname : String) : lua_State × Int :=
  match env.loadfile fname L.mem with
  | (m, Except.ok f) => ({ L with stack := f :: L.stack, mem := m }, 0)
  | (m, Except.error e) => ({ L with stack := e :: L.stack, mem := m }, LUA_ERRSYNTAX)

/-- Lua API `lua_pcall(L, nargs, 0, 0)`: the function and its arguments are popped; no result is kept;
an error is caught and its error object pushed. -/
def lua_pcall (env : LuaEnv) (L : lua_State) (nargs : Nat) : Option (lua_State × Int) :=
  match L.stack.drop nargs with
  | f :: rest =>
    let args := (L.stack.take nargs).reverse
    match env.call f args L.mem with
    | (m, none) =>
      some ({ L with stack := rest, mem := m, called := L.called ++ [(f, args)] }, 0)
    | (m, some e) =>
      some ({ L with stack := e :: rest, mem := m, called := L.called ++ [(f, args)] },
            LUA_ERRRUN)
  | [] => none

/-- How a C function run by the interpreter ends: with a count of results, or with an error
that leaves it through `longjmp`. -/
inductive CReturn where
  | returns (nresults : Nat)
  | raises (e : LuaValue)
  deriving DecidableEq, Repr

/-- Lua API `lua_call(L, nargs, 0)`: as `lua_pcall`, but an error is not caught. The second component
is the error object when an error was raised. -/
def lua_call (env : LuaEnv) (L : lua_State) (nargs : Nat) :
    Option (lua_State × Option LuaValue) :=
  match L.stack.drop nargs with
  | f :: rest =>
    let args := (L.stack.take nargs).reverse
    match env.call f args L.mem with
    | (m, r) => some ({ L with stack := rest, mem := m, called := L.called ++ [(f, args)] }, r)
  | [] => none

/-- Lua API `lua_cpcall(L, func, ud)`: `func` runs in protected mode on a stack of its own that holds
the light userdata `ud`. Without an error the stack of the caller is as before and the results
of `func` are dropped; with an error the error object is pushed. -/
def lua_cpcall (L : lua_State) (func : lua_State → Option (lua_State × CReturn)) (ud : Nat) :
    Option (lua_State × Int) :=
  match func { L with stack := [LuaValue.lightuserdata ud] } with
  | some (L1, CReturn.returns _) => some ({ L1 with stack := L.stack }, 0)
  | some (L1, CReturn.raises e) => some ({ L1 with stack := e :: L.stack }, LUA_ERRRUN)
  | none => none

/-! ## Chapters: `get_chapter_list` -/

/-- The chapter table of the player: `get_chapter_count(mpctx)`, `chapter_start_time(mpctx, n)`
and `chapter_display_name(mpctx, n)`, which always gives a string. -/
structure ChapterTable where
  get_chapter_count : Int
  chapter_start_time : Int → lua_Number
  chapter_display_name : Int → String

/-- The body of the loop of `get_chapter_list` for chapter `n`. -/
def chapter_body (ch : ChapterTable) (n : Int) (L : lua_State) : Option lua_State := do
  let time := ch.chapter_start_time n
  let name := ch.chapter_display_name n
  let L := lua_newtable L
  let L := lua_pushnumber L time
  let L ← lua_setfield L (-2) "time"
  let L := lua_pushstring L name
  let L ← lua_setfield L (-2) "name"
  let L := lua_pushinteger L (n + 1)
  let L ← lua_insert L (-2)
  lua_settable L (-3)

/-- The loop `for (int n = 0; n < num; n++)` of `get_chapter_list`, entered with the current
value of `n`. `fuel` bounds the number of rounds; `none` when it does not suffice or a step
of the body is not defined. -/
def chapter_loop (ch : ChapterTable) (num : Int) : Nat → Int → lua_State → Option lua_State
  | 0, n, L => if n < num then none else some L
  | fuel + 1, n, L =>
    if n < num then
      match chapter_body ch n L with
      | some L1 => chapter_loop ch num fuel (n + 1) L1
      | none => none
    else some L

/-- C function `get_chapter_list`: the state afterwards and the number of results. -/
def get_chapter_list (ch : ChapterTable) (L : lua_State) : Option (lua_State × Nat) :=
  let L := lua_newtable L
  let num := ch.get_chapter_count
  match chapter_loop ch num num.toNat 0 L with
  | some L1 => some (L1, 1)
  | none => none

/-- The record the spec asks for chapter `i`: `{time = chapter_start_time(i),
name = chapter_display_name(i)}`. -/
def spec_chapter_record (ch : ChapterTable) (i : Nat) : LuaTable :=
  [(LuaValue.string "time", LuaValue.number (ch.chapter_start_time (i : Int))),
   (LuaValue.string "name", LuaValue.string (ch.chapter_display_name (i : Int)))]

/-- The sequence the spec asks for `n` chapters, when the record of chapter `i` is the table
with reference `base + 1 + i`: key `i + 1` holds chapter `i`. -/
def spec_chapter_list (base n : Nat) : LuaTable :=
  (List.range n).map
    (fun (i : Nat) => (LuaValue.integer ((i : Int) + 1), LuaValue.table (base + 1 + i)))

/-- A chapter table for concrete runs: two chapters. -/
def sampleChapters : ChapterTable :=
  { get_chapter_count := 2
    chapter_start_time := fun n => ⟨n.toNat * 60⟩
    chapter_display_name := fun n => if n = 0 then "(1) Intro" else "(2) Main" }

/-! ## The script runtime: `mp_lua_init`, `mp_lua_run`, `mp_lua_load_file`, `mp_lua_update`,
`mp_lua_uninit` -/

/-- C `struct lua_ctx`. -/
structure lua_ctx where
  state : lua_State
  start_time : Nat
  deriving DecidableEq, Repr

/-- The part of `struct MPContext` the runtime touches: `self` is its own address (what
`lua_pushlightuserdata(L, mpctx)` stores), `lua_file` is `opts.lua_file`, `lua_ctx` the script
context (`none` is `NULL`), `closed` the record of the handles given to `lua_close`. -/
structure MPContext where
  self : Nat
  lua_file : Option String
  lua_ctx : Option lua_ctx
  closed : List Nat
  deriving DecidableEq, Repr

/-- The line `report_error` gives to `mp_msg`, recorded in `msgs`. -/
def mp_msg (L : lua_State) (line : String) : lua_State :=
  { L with msgs := L.msgs ++ [line] }

/-- C function `report_error`. -/
def report_error (env : LuaEnv) (L : lua_State) : Option lua_State :=
  let err := lua_tostring env L (-1)
  let L := mp_msg L ("[lua] Error: " ++ (match err with | some e => e | none => "[unknown]")
                      ++ "\n")
  lua_pop L 1

/-- The state `luaL_newstate` returns at address `handle`: nothing on the stack, no table. -/
def fresh_state (handle : Nat) : lua_State :=
  { handle := handle, stack := [], mem := { heap := [], registry := [], globals := [] },
    called := [], msgs := [] }

/-- Lua API `luaL_openlibs`: the libraries change what scripts can reach, not the stack. -/
def luaL_openlibs (env : LuaEnv) (L : lua_State) : lua_State :=
  { L with mem := env.openlibs L.mem }

/-- C function `mp_lua_run`. `none` stands for a failed `assert` or a misuse of the API. -/
def mp_lua_run (env : LuaEnv) (mpctx : MPContext) (source : String) : Option MPContext :=
  match mpctx.lua_ctx with
  | none => some mpctx
  | some ctx => do
    let L := ctx.state
    let (L, status) := luaL_loadstring env L source
    let (L, failed) ←
      if status ≠ 0 then some (L, true)
      else match lua_pcall env L 0 with
        | some (L, status) => some (L, decide (status ≠ 0))
        | none => none
    let L ← if failed then report_error env L else some L
    if lua_gettop L = 0 then
      some { mpctx with lua_ctx := some { ctx with state := L } }
    else none

/-- C function `mp_lua_load_file`. `none` stands for a failed `assert` or a misuse of the
API. -/
def mp_lua_load_file (env : LuaEnv) (mpctx : MPContext) (fname : String) : Option MPContext :=
  match mpctx.lua_ctx with
  | none => some mpctx
  | some ctx => do
    let L := ctx.state
    let (L, status) := luaL_loadfile env L fname
    let (L, failed) ←
      if status ≠ 0 then some (L, true)
      else match lua_pcall env L 0 with
        | some (L, status) => some (L, decide (status ≠ 0))
        | none => none
    let L ← if failed then report_error env L else some L
    if lua_gettop L = 0 then
      some { mpctx with lua_ctx := some { ctx with state := L } }
    else none

/-- C function `add_functions`; on the stack: the `mp` table. -/
def add_functions (L : lua_State) : Option lua_State := do
  let L := lua_pushcfunction L HostFn.send_command
  let L ← lua_setfield L (-2) "send_command"
  let L := lua_pushcfunction L HostFn.property_list
  let L ← lua_setfield L (-2) "property_list"
  let L := lua_pushinteger L 0
  let L ← lua_pushcclosure L HostFn.property_string 1
  let L ← lua_setfield L (-2) "property_get"
  let L := lua_pushinteger L 1
  let L ← lua_pushcclosure L HostFn.property_string 1
  let L ← lua_setfield L (-2) "property_get_string"
  let L := lua_pushcfunction L HostFn.set_osd_ass
  let L ← lua_setfield L (-2) "set_osd_ass"
  let L := lua_pushcfunction L HostFn.get_osd_resolution
  let L ← lua_setfield L (-2) "get_osd_resolution"
  let L := lua_pushcfunction L HostFn.get_mouse_pos
  let L ← lua_setfield L (-2) "get_mouse_pos"
  let L := lua_pushcfunction L HostFn.get_timer
  let L ← lua_setfield L (-2) "get_timer"
  let L := lua_pushcfunction L HostFn.get_chapter_list
  lua_setfield L (-2) "get_chapter_list"

/-- C function `mp_lua_init`. `newstate` is what `luaL_newstate` returns (`none` is `NULL`),
`clock` the count of the millisecond clock at that moment, `lua_defaults` the text of the
bundled script. `none` stands for a failed `assert` or a misuse of the API. -/
def mp_lua_init (env : LuaEnv) (lua_defaults : String) (newstate : Option Nat) (clock : Nat)
    (mpctx : MPContext) : Option MPContext :=
  match newstate with
  | none =>
    -- error_out: `state` is `NULL`, so `lua_close` is not called
    some { mpctx with lua_ctx := none }
  | some handle => do
    let L := fresh_state handle
    let start_time := GetTimerMS clock
    let L := lua_pushlightuserdata L mpctx.self
    let L ← lua_setfield L LUA_REGISTRYINDEX "mpctx"
    let L := luaL_openlibs env L
    let L := lua_newtable L
    let L ← lua_pushvalue L (-1)
    let L ← lua_setglobal L "mp"
    let L ← add_functions L
    let L ← lua_pop L 1
    let (L, status) := luaL_loadstring env L lua_defaults
    let (L, failed) ←
      if status ≠ 0 then some (L, true)
      else match lua_pcall env L 0 with
        | some (L, status) => some (L, decide (status ≠ 0))
        | none => none
    let L ← if failed then report_error env L else some L
    if lua_gettop L = 0 then
      let mpctx := { mpctx with lua_ctx := some { state := L, start_time := start_time } }
      match mpctx.lua_file with
      | some fname => mp_lua_load_file env mpctx fname
      | none => some mpctx
    else none

/-- C function `mp_lua_uninit`. -/
def mp_lua_uninit (mpctx : MPContext) : MPContext :=
  match mpctx.lua_ctx with
  | none => mpctx
  | some ctx => { mpctx with lua_ctx := none, closed := mpctx.closed ++ [ctx.state.handle] }

/-- C function `run_update`. -/
def run_update (env : LuaEnv) (L : lua_State) : Option (lua_State × CReturn) :=
  match lua_getglobal env L "mp_update" with
  | none => none
  | some (L, some e) => some (L, CReturn.raises e)
  | some (L, none) =>
    if lua_isnil L (-1) then some (L, CReturn.returns 0)
    else
      match lua_call env L 0 with
      | some (L, none) => some (L, CReturn.returns 0)
      | some (L, some e) => some (L, CReturn.raises e)
      | none => none

/-- C function `mp_lua_update`. `none` stands for a misuse of the API. -/
def mp_lua_update (env : LuaEnv) (mpctx : MPContext) : Option MPContext :=
  match mpctx.lua_ctx with
  | none => some mpctx
  | some ctx => do
    let L := ctx.state
    let (L, status) ← lua_cpcall L (run_update env) 0
    let L ← if status ≠ 0 then report_error env L else some L
    some { mpctx with lua_ctx := some { ctx with state := L } }

/-- The line the Error Sink writes for the error object `e`: the message, or a placeholder
when the error object is neither a string nor a number. -/
def spec_error_line (env : LuaEnv) (e : LuaValue) : String :=
  "[lua] Error: " ++ (match tostring env e with | some s => s | none => "[unknown]") ++ "\n"

/-- The common course of `mp_lua_run`, `mp_lua_load_file` and the bundled script in
`mp_lua_init`, entered with an empty stack: the state after loading a chunk, calling it when
it compiled, and reporting the error when one of the two failed. `loaded` is what the
compiler gave. -/
def spec_after_chunk (env : LuaEnv) (L : lua_State)
    (loaded : Interp × Except LuaValue LuaValue) : lua_State :=
  match loaded with
  | (m, Except.error e) => { L with mem := m, msgs := L.msgs ++ [spec_error_line env e] }
  | (m, Except.ok f) =>
    match env.call f [] m with
    | (m2, none) => { L with mem := m2, called := L.called ++ [(f, [])] }
    | (m2, some e) =>
      { L with mem := m2, called := L.called ++ [(f, [])]
               msgs := L.msgs ++ [spec_error_line env e] }

/-- The Host API Table of the spec: the names under which the native functions are installed
in the `mp` table, added to the table `t`. -/
def spec_host_api (t : LuaTable) : LuaTable :=
  let t := t.set (LuaValue.string "send_command") (LuaValue.cclosure HostFn.send_command [])
  let t := t.set (LuaValue.string "property_list") (LuaValue.cclosure HostFn.property_list [])
  let t := t.set (LuaValue.string "property_get") (LuaValue.cclosure HostFn.property_string [0])
  let t := t.set (LuaValue.string "property_get_string")
    (LuaValue.cclosure HostFn.property_string [1])
  let t := t.set (LuaValue.string "set_osd_ass") (LuaValue.cclosure HostFn.set_osd_ass [])
  let t := t.set (LuaValue.string "get_osd_resolution")
    (LuaValue.cclosure HostFn.get_osd_resolution [])
  let t := t.set (LuaValue.string "get_mouse_pos") (LuaValue.cclosure HostFn.get_mouse_pos [])
  let t := t.set (LuaValue.string "get_timer") (LuaValue.cclosure HostFn.get_timer [])
  t.set (LuaValue.string "get_chapter_list") (LuaValue.cclosure HostFn.get_chapter_list [])

/-- The interpreter state `mp_lua_init` has built when it turns to the bundled script: the
player context in the registry, the libraries opened, the `mp` table with the Host API Table
stored as a global, and an empty stack. -/
def spec_init_state (env : LuaEnv) (self handle : Nat) : lua_State :=
  let m := env.openlibs
    { heap := [], registry := [(LuaValue.string "mpctx", LuaValue.lightuserdata self)],
      globals := [] }
  { handle := handle
    stack := []
    mem := { heap := m.heap ++ [spec_host_api []]
             registry := m.registry
             globals := m.globals.set (LuaValue.string "mp") (LuaValue.table m.heap.length) }
    called := []
    msgs := [] }

/-- The state of the interpreter after `mp_lua_init` succeeded in creating it: the bundled
script has been run, then the user script when one is configured. -/
def spec_ready_state (env : LuaEnv) (lua_defaults : String) (handle : Nat)
    (mpctx : MPContext) : lua_State :=
  let L0 := spec_init_state env mpctx.self handle
  let L1 := spec_after_chunk env L0 (env.loadstring lua_defaults L0.mem)
  match mpctx.lua_file with
  | some fname => spec_after_chunk env L1 (env.loadfile fname L1.mem)
  | none => L1

/-- The update hook as the script defined it: the value the table of globals holds under
`mp_update`, `nil` when the script defined none. -/
def spec_update_hook (L : lua_State) : LuaValue :=
  LuaTable.get L.mem.globals (LuaValue.string "mp_update")

/-- What the lookup `lua_getglobal(L, "mp_update")` gives: the memory afterwards, and the value
found or the error raised. A hook the script defined is found as it is; for an undefined one
the `index` event of the table of globals decides. -/
def spec_update_lookup (env : LuaEnv) (L : lua_State) : Interp × Except LuaValue LuaValue :=
  if spec_update_hook L ≠ LuaValue.nil then (L.mem, Except.ok (spec_update_hook L))
  else
    match env.index_event TableLoc.globals (LuaValue.string "mp_update") L.mem with
    | none => (L.mem, Except.ok LuaValue.nil)
    | some r => r

/-- The interpreter state after `dispatchUpdate`: an error of the lookup is reported; a lookup
that gives `nil` calls nothing; any other value found is called once without arguments, and
its error, if any, reported. -/
def spec_after_update (env : LuaEnv) (L : lua_State) : lua_State :=
  match spec_update_lookup env L with
  | (m, Except.error e) => { L with mem := m, msgs := L.msgs ++ [spec_error_line env e] }
  | (m, Except.ok hook) =>
    if hook = LuaValue.nil then { L with mem := m }
    else
      match env.call hook [] m with
      | (m2, none) => { L with mem := m2, called := L.called ++ [(hook, [])] }
      | (m2, some e) =>
        { L with mem := m2, called := L.called ++ [(hook, [])]
                 msgs := L.msgs ++ [spec_error_line env e] }

/-- The player contexts the program can be in: it starts without a script context, and moves
on by the entry points of the runtime (each of which has returned) and by a change of the
configured script file. -/
inductive Reachable (env : LuaEnv) (lua_defaults : String) : MPContext → Prop where
  | start (mpctx : MPContext) (h : mpctx.lua_ctx = none) : Reachable env lua_defaults mpctx
  | init (mpctx next : MPContext) (newstate : Option Nat) (clock : Nat)
      (hr : Reachable env lua_defaults mpctx)
      (h : mp_lua_init env lua_defaults newstate clock mpctx = some next) :
      Reachable env lua_defaults next
  | run (mpctx next : MPContext) (source : String)
      (hr : Reachable env lua_defaults mpctx)
      (h : mp_lua_run env mpctx source = some next) : Reachable env lua_defaults next
  | load_file (mpctx next : MPContext) (fname : String)
      (hr : Reachable env lua_defaults mpctx)
      (h : mp_lua_load_file env mpctx fname = some next) : Reachable env lua_defaults next
  | update (mpctx next : MPContext)
      (hr : Reachable env lua_defaults mpctx)
      (h : mp_lua_update env mpctx = some next) : Reachable env lua_defaults next
  | uninit (mpctx : MPContext)
      (hr : Reachable env lua_defaults mpctx) : Reachable env lua_defaults (mp_lua_uninit mpctx)
  | configure (mpctx : MPContext) (lua_file : Option String)
      (hr : Reachable env lua_defaults mpctx) :
      Reachable env lua_defaults { mpctx with lua_file := lua_file }

/-- An interpreter for concrete runs: the chunk `"ok"` compiles to function `1`, which runs
without error and defines the global `mp_update` as function `2`; the chunk `"bad"` compiles
to function `3`, which raises an error; nothing else compiles; function `2` raises an error
when the global `fail` is set. When the global `strict` is set, the table of globals has an
`__index` metamethod that raises an error for every global that is not defined, as the usual
strict mode of Lua scripts does. -/
def sampleEnv : LuaEnv :=
  { index_event := fun loc _ m =>
      if loc = TableLoc.globals
          ∧ LuaTable.get m.globals (LuaValue.string "strict") ≠ LuaValue.nil then
        some (m, Except.error (LuaValue.string "variable is not declared"))
      else none
    call := fun f _ m =>
      if f = LuaValue.function 1 then
        ({ m with globals := LuaTable.set m.globals (LuaValue.string "mp_update")
                               (LuaValue.function 2) }, none)
      else if f = LuaValue.function 2 then
        (m, if LuaTable.get m.globals (LuaValue.string "fail") = LuaValue.nil then none
            else some (LuaValue.string "update failed"))
      else (m, some (LuaValue.string "attempt to call a value"))
    loadstring := fun s m =>
      if s = "ok" then (m, Except.ok (LuaValue.function 1))
      else if s = "bad" then (m, Except.ok (LuaValue.function 3))
      else (m, Except.error (LuaValue.string "syntax error"))
    loadfile := fun s m =>
      if s = "ok" then (m, Except.ok (LuaValue.function 1))
      else if s = "bad" then (m, Except.ok (LuaValue.function 3))
      else (m, Except.error (LuaValue.string "cannot open file"))
    openlibs := fun m => m
    fmt_number := fun d => toString d.bits
    fmt_integer := fun i => toString i }

/-- A player context for concrete runs: a script context with a new interpreter at address
`5`, and no user script configured. -/
def sampleContext : MPContext :=
  { self := 1, lua_file := none,
    lua_ctx := some { state := fresh_state 5, start_time := 0 }, closed := [] }

/-- A player context for concrete runs, before initialization, with the user script `"bad"`
configured. -/
def sampleStart : MPContext :=
  { self := 1, lua_file := some "bad", lua_ctx := none, closed := [] }

/-- The player context `mp_lua_init` makes of `sampleStart` when the interpreter is created at
address `5` and the clock stands at `77`. -/
def sampleReady : MPContext :=
  { self := 1, lua_file := some "bad",
    lua_ctx := some { state := spec_ready_state sampleEnv "ok" 5 sampleStart, start_time := 77 },
    closed := [] }

/-- A property table for concrete runs: `"volume"` is known, nothing else is. -/
def sampleProperties (name : String) (action : m_property_action) : Int × Option String :=
  if name = "volume" then
    (1, some (if action = m_property_action.M_PROPERTY_PRINT then "50%" else "50.000000"))
  else (-1, none)

/-- A command parser for concrete runs: a command line is accepted when it is not empty, and
parses to its list of characters. -/
def sampleParser (s : String) (_loc : String) : Option (List Char) :=
  if s = "" then none else some s.toList

end Mpv

namespace Mpv

/-! ## Theorems: `set_osd_ass` -/

theorem strcmp_eq_zero_iff (a b : String) : strcmp a b = 0 ↔ a = b := by
  unfold strcmp
  by_cases h : a = b
  · simp [h]
  · by_cases h2 : a < b <;> simp [h, h2]

/-- What `set_osd_ass` does, by cases on the current text. -/
theorem set_osd_ass_eq (osd : osd_state) (text : String) :
    set_osd_ass osd text =
      if osd.external = some text then (osd, 0)
      else (⟨some text, osd.changed ++ [OsdType.OSDTYPE_EXTERNAL]⟩, 0) := by
  cases osd with
  | mk ext ch =>
    cases ext with
    | none => simp [set_osd_ass, vo_osd_changed]
    | some cur =>
      by_cases h : cur = text
      · simp [set_osd_ass, vo_osd_changed, strcmp_eq_zero_iff, h]
      · simp [set_osd_ass, vo_osd_changed, strcmp_eq_zero_iff, h]

/-- C1, as stated, fails: with the external text already `"a"`, two calls `set_osd_ass("a")`
trigger no notification at all, and `set_osd_ass("a")` followed by `set_osd_ass("b")` triggers
one notification, not two. -/
theorem set_osd_ass_sequence_counterexample :
    ¬ ((set_osd_ass (set_osd_ass ⟨some "a", []⟩ "a").1 "a").1.changed.length = 0 + 1)
    ∧ ¬ ((set_osd_ass (set_osd_ass ⟨some "a", []⟩ "a").1 "b").1.changed.length = 0 + 2) := by
  simp [set_osd_ass_eq]

/-- C1, amended: two calls `set_osd_ass(t)` in a row trigger exactly one notification when the
external text is unset or differs from `t` at the start, and none when it already equals `t`;
for `a ≠ b`, `set_osd_ass(a)` followed by `set_osd_ass(b)` triggers exactly two notifications
when the external text is unset or differs from `a` at the start, and exactly one when it
already equals `a`. -/
theorem set_osd_ass_sequence (osd : osd_state) (t a b : String) :
    (set_osd_ass (set_osd_ass osd t).1 t).1.changed =
        osd.changed ++ (if osd.external = some t then [] else [OsdType.OSDTYPE_EXTERNAL])
    ∧ (a ≠ b →
        (set_osd_ass (set_osd_ass osd a).1 b).1.changed =
          osd.changed ++ (if osd.external = some a then [OsdType.OSDTYPE_EXTERNAL]
                          else [OsdType.OSDTYPE_EXTERNAL, OsdType.OSDTYPE_EXTERNAL])) := by
  constructor
  · by_cases h : osd.external = some t <;> simp [set_osd_ass_eq, h]
  · intro hab
    by_cases h : osd.external = some a <;> simp [set_osd_ass_eq, h, hab]

theorem set_osd_ass_sequence_witness :
    "a" ≠ "b"
    ∧ (set_osd_ass (set_osd_ass ⟨none, []⟩ "a").1 "b").1.changed =
        [OsdType.OSDTYPE_EXTERNAL, OsdType.OSDTYPE_EXTERNAL] :=
  ⟨by decide, by simpa using (set_osd_ass_sequence ⟨none, []⟩ "a" "a" "b").2 (by decide)⟩

/-- C2: `set_osd_ass(t)` fires the notification and replaces the external text exactly when
the external text is unset or not equal to `t`; when it equals `t` nothing is fired and the
OSD state is unchanged; in every case the external text is `t` afterwards. -/
theorem set_osd_ass_notifies_iff_differs (osd : osd_state) (t : String) :
    ((set_osd_ass osd t).1 = ⟨some t, osd.changed ++ [OsdType.OSDTYPE_EXTERNAL]⟩
        ↔ (osd.external = none ∨ osd.external ≠ some t))
    ∧ ((set_osd_ass osd t).1.changed = osd.changed ++ [OsdType.OSDTYPE_EXTERNAL]
        ↔ (osd.external = none ∨ osd.external ≠ some t))
    ∧ (osd.external = some t → (set_osd_ass osd t).1 = osd)
    ∧ (set_osd_ass osd t).1.external = some t
    ∧ (set_osd_ass osd t).2 = 0 := by
  by_cases h : osd.external = some t
  · simp [set_osd_ass_eq, h]
    intro hh
    have := congrArg osd_state.changed hh
    simp at this
  · have h2 : osd.external = none ∨ ¬ osd.external = some t := Or.inr h
    simp [set_osd_ass_eq, h, h2]

theorem set_osd_ass_notifies_iff_differs_witness :
    (osd_state.mk (some "t") []).external = some "t"
    ∧ (set_osd_ass ⟨some "t", []⟩ "t").1 = ⟨some "t", []⟩ :=
  ⟨rfl, (set_osd_ass_notifies_iff_differs ⟨some "t", []⟩ "t").2.2.1 rfl⟩

/-! ## Theorems: the Lua tables and `add_functions` -/

theorem LuaTable.get_set_self (t : LuaTable) (k v : LuaValue) (hv : v ≠ LuaValue.nil) :
    LuaTable.get (LuaTable.set t k v) k = v := by
  have hnone : List.find? (fun e => decide (e.1 = k))
      (List.filter (fun e => decide (e.1 ≠ k)) t) = none := by
    rw [List.find?_eq_none]
    intro e he
    simpa using (List.mem_filter.mp he).2
  unfold LuaTable.get LuaTable.set
  simp only [if_neg hv]
  rw [List.find?_append, hnone]
  simp

theorem LuaTable.get_set_ne (t : LuaTable) (k k2 v : LuaValue) (h : k2 ≠ k) :
    LuaTable.get (LuaTable.set t k v) k2 = LuaTable.get t k2 := by
  have hf : List.find? (fun e => decide (e.1 = k2))
      (List.filter (fun e => decide (e.1 ≠ k)) t)
      = List.find? (fun e => decide (e.1 = k2)) t := by
    rw [List.find?_filter]
    congr 1
    funext e
    by_cases he : e.1 = k2
    · have hk : e.1 ≠ k := by rw [he]; exact h
      simp [he, hk, h]
    · simp [he]
  have hk : ¬ k = k2 := fun h2 => h h2.symm
  unfold LuaTable.get LuaTable.set
  by_cases hv : v = LuaValue.nil
  · simp only [if_pos hv]
    rw [hf]
  · simp only [if_neg hv]
    rw [List.find?_append, hf]
    cases hfind : List.find? (fun e => decide (e.1 = k2)) t with
    | none => simp [hk]
    | some e => simp

theorem spec_host_api_property (t : LuaTable) :
    LuaTable.get (spec_host_api t) (LuaValue.string "property_get")
      = LuaValue.cclosure HostFn.property_string [0]
    ∧ LuaTable.get (spec_host_api t) (LuaValue.string "property_get_string")
      = LuaValue.cclosure HostFn.property_string [1] := by
  constructor
  · simp only [spec_host_api]
    rw [LuaTable.get_set_ne _ _ _ _ (by decide), LuaTable.get_set_ne _ _ _ _ (by decide),
      LuaTable.get_set_ne _ _ _ _ (by decide), LuaTable.get_set_ne _ _ _ _ (by decide),
      LuaTable.get_set_ne _ _ _ _ (by decide), LuaTable.get_set_ne _ _ _ _ (by decide),
      LuaTable.get_set_self _ _ _ (by decide)]
  · simp only [spec_host_api]
    rw [LuaTable.get_set_ne _ _ _ _ (by decide), LuaTable.get_set_ne _ _ _ _ (by decide),
      LuaTable.get_set_ne _ _ _ _ (by decide), LuaTable.get_set_ne _ _ _ _ (by decide),
      LuaTable.get_set_ne _ _ _ _ (by decide),
      LuaTable.get_set_self _ _ _ (by decide)]

theorem report_error_eq (env : LuaEnv) (L : lua_State) (e : LuaValue) (rest : List LuaValue)
    (hs : L.stack = e :: rest) :
    report_error env L =
      some { L with stack := rest, msgs := L.msgs ++ [spec_error_line env e] } := by
  simp [report_error, lua_tostring, stackAt, depth, hs, mp_msg, lua_pop, spec_error_line]

theorem lua_setfield_below_top (L : lua_State) (k : String) (v : LuaValue) (r : Nat)
    (rest : List LuaValue) (t : LuaTable)
    (hs : L.stack = v :: LuaValue.table r :: rest) (hh : L.mem.heap[r]? = some t) :
    lua_setfield L (-2) k =
      some { L with stack := LuaValue.table r :: rest
                    mem := { L.mem with
                      heap := L.mem.heap.set r (t.set (LuaValue.string k) v) } } := by
  have hlt : r < L.mem.heap.length := (List.getElem?_eq_some_iff.mp hh).1
  simp [lua_setfield, tableLoc, stackAt, depth, hs, LUA_REGISTRYINDEX, LUA_GLOBALSINDEX, hlt,
    readTable, hh, writeTable]

theorem install_step (hd : Nat) (m : Interp) (c : List (LuaValue × List LuaValue))
    (ms : List String) (k : String) (v : LuaValue) (r : Nat) (rest : List LuaValue)
    (hlt : r < m.heap.length) :
    lua_setfield (push ⟨hd, LuaValue.table r :: rest, m, c, ms⟩ v) (-2) k =
      some ⟨hd, LuaValue.table r :: rest,
        { m with heap := m.heap.set r ((m.heap.getD r []).set (LuaValue.string k) v) }, c, ms⟩ := by
  have hh : m.heap[r]? = some (m.heap.getD r []) := by
    rw [List.getD_eq_getElem?_getD, List.getElem?_eq_getElem hlt]; rfl
  rw [lua_setfield_below_top _ k v r rest _ (by simp [push]) (by simpa [push] using hh)]
  simp [push]

theorem set_getD_set (heap : List LuaTable) (r : Nat) (t : LuaTable) (k v : LuaValue)
    (hlt : r < heap.length) :
    (heap.set r t).set r (((heap.set r t).getD r []).set k v) = heap.set r (t.set k v) := by
  simp [List.getD_eq_getElem?_getD, List.getElem?_set_self hlt]

theorem add_functions_eq (L : lua_State) (r : Nat) (rest : List LuaValue) (t : LuaTable)
    (hs : L.stack = LuaValue.table r :: rest) (hh : L.mem.heap[r]? = some t) :
    add_functions L =
      some { L with mem := { L.mem with heap := L.mem.heap.set r (spec_host_api t) } } := by
  have hlt : r < L.mem.heap.length := (List.getElem?_eq_some_iff.mp hh).1
  have hd : L.mem.heap.getD r [] = t := by
    rw [List.getD_eq_getElem?_getD, hh]; rfl
  have hpc : ∀ (M : lua_State) (i : Int),
      lua_pushcclosure (lua_pushinteger M i) HostFn.property_string 1
        = some (push M (LuaValue.cclosure HostFn.property_string [i])) := by
    intro M i
    simp [lua_pushcclosure, lua_pushinteger, push, popIntegers]
  obtain ⟨hdl, st, m, c, ms⟩ := L
  simp only at hs hlt hd
  subst hs
  unfold add_functions
  simp only [lua_pushcfunction, hpc, Option.bind_eq_bind, Option.some_bind]
  rw [install_step _ _ _ _ _ _ _ _ hlt]
  simp only [Option.some_bind]
  rw [install_step _ _ _ _ _ _ _ _ (by simpa using hlt)]
  simp only [Option.some_bind]
  rw [install_step _ _ _ _ _ _ _ _ (by simpa using hlt)]
  simp only [Option.some_bind]
  rw [install_step _ _ _ _ _ _ _ _ (by simpa using hlt)]
  simp only [Option.some_bind]
  rw [install_step _ _ _ _ _ _ _ _ (by simpa using hlt)]
  simp only [Option.some_bind]
  rw [install_step _ _ _ _ _ _ _ _ (by simpa using hlt)]
  simp only [Option.some_bind]
  rw [install_step _ _ _ _ _ _ _ _ (by simpa using hlt)]
  simp only [Option.some_bind]
  rw [install_step _ _ _ _ _ _ _ _ (by simpa using hlt)]
  simp only [Option.some_bind]
  rw [install_step _ _ _ _ _ _ _ _ (by simpa using hlt)]
  simp only [set_getD_set _ _ _ _ _ hlt, hd, spec_host_api]

/-! ## Theorems: `property_get` and `property_get_string` -/

/-- C3: when `m_property_do` fails (negative status or no result string), `property_get`
returns no value and `property_get_string` returns exactly one value, the empty string; when
it succeeds with the string `r`, each of the two returns exactly the one value `r`.
`property_get` asks with `M_PROPERTY_GET_STRING`, `property_get_string` with
`M_PROPERTY_PRINT`: the two are `property_string` with the upvalue `0` and `1`, and these are
the closures `add_functions` stores under the two names in the `mp` table. -/
theorem property_get_absent_property_get_string_empty
    (m_property_do : String → m_property_action → Int × Option String) (name : String) :
    (∀ status result,
        m_property_do name m_property_action.M_PROPERTY_GET_STRING = (status, result) →
        (status < 0 ∨ result = none) →
        property_get m_property_do name = ⟨[], 0⟩
        ∧ (property_get m_property_do name).results = [])
    ∧ (∀ status result,
        m_property_do name m_property_action.M_PROPERTY_PRINT = (status, result) →
        (status < 0 ∨ result = none) →
        property_get_string m_property_do name = ⟨[LuaValue.string ""], 1⟩
        ∧ (property_get_string m_property_do name).results = [LuaValue.string ""])
    ∧ (∀ status r,
        m_property_do name m_property_action.M_PROPERTY_GET_STRING = (status, some r) →
        0 ≤ status →
        property_get m_property_do name = ⟨[LuaValue.string r], 1⟩
        ∧ (property_get m_property_do name).results = [LuaValue.string r])
    ∧ (∀ status r,
        m_property_do name m_property_action.M_PROPERTY_PRINT = (status, some r) →
        0 ≤ status →
        property_get_string m_property_do name = ⟨[LuaValue.string r], 1⟩
        ∧ (property_get_string m_property_do name).results = [LuaValue.string r])
    ∧ (∀ (L : lua_State) (r : Nat) (rest : List LuaValue) (t : LuaTable),
        L.stack = LuaValue.table r :: rest → L.mem.heap[r]? = some t →
        ∃ (L1 : lua_State) (t1 : LuaTable),
          add_functions L = some L1 ∧ L1.mem.heap[r]? = some t1
          ∧ LuaTable.get t1 (LuaValue.string "property_get")
              = LuaValue.cclosure HostFn.property_string [0]
          ∧ LuaTable.get t1 (LuaValue.string "property_get_string")
              = LuaValue.cclosure HostFn.property_string [1])
    ∧ property_get m_property_do name = property_string m_property_do 0 name
    ∧ property_get_string m_property_do name = property_string m_property_do 1 name := by
  refine ⟨?_, ?_, ?_, ?_, ?_, rfl, rfl⟩
  · intro status result h hfail
    have e : property_get m_property_do name = ⟨[], 0⟩ := by
      rcases hfail with hneg | hnone
      · have : ¬ (0 ≤ status) := by omega
        simp [property_get, property_string, h, this]
      · subst hnone
        by_cases hs : 0 ≤ status <;> simp [property_get, property_string, h, hs]
    exact ⟨e, by rw [e]; rfl⟩
  · intro status result h hfail
    have e : property_get_string m_property_do name = ⟨[LuaValue.string ""], 1⟩ := by
      rcases hfail with hneg | hnone
      · have : ¬ (0 ≤ status) := by omega
        simp [property_get_string, property_string, h, this]
      · subst hnone
        by_cases hs : 0 ≤ status <;> simp [property_get_string, property_string, h, hs]
    exact ⟨e, by rw [e]; rfl⟩
  · intro status r h hs
    have e : property_get m_property_do name = ⟨[LuaValue.string r], 1⟩ := by
      simp [property_get, property_string, h, hs]
    exact ⟨e, by rw [e]; rfl⟩
  · intro status r h hs
    have e : property_get_string m_property_do name = ⟨[LuaValue.string r], 1⟩ := by
      simp [property_get_string, property_string, h, hs]
    exact ⟨e, by rw [e]; rfl⟩
  · intro L r rest t hs hh
    have hlt : r < L.mem.heap.length := (List.getElem?_eq_some_iff.mp hh).1
    refine ⟨_, spec_host_api t, add_functions_eq L r rest t hs hh, ?_,
      (spec_host_api_property t).1, (spec_host_api_property t).2⟩
    simp [hlt]

theorem property_get_absent_property_get_string_empty_witness :
    (sampleProperties "nope" m_property_action.M_PROPERTY_GET_STRING = (-1, none)
      ∧ ((-1 : Int) < 0 ∨ (none : Option String) = none)
      ∧ (property_get sampleProperties "nope").results = [])
    ∧ (sampleProperties "nope" m_property_action.M_PROPERTY_PRINT = (-1, none)
      ∧ (property_get_string sampleProperties "nope").results = [LuaValue.string ""])
    ∧ (sampleProperties "volume" m_property_action.M_PROPERTY_GET_STRING
          = (1, some "50.000000")
      ∧ (0 : Int) ≤ 1
      ∧ (property_get sampleProperties "volume").results = [LuaValue.string "50.000000"])
    ∧ (sampleProperties "volume" m_property_action.M_PROPERTY_PRINT = (1, some "50%")
      ∧ (property_get_string sampleProperties "volume").results = [LuaValue.string "50%"]) :=
  ⟨⟨by decide, by decide,
      ((property_get_absent_property_get_string_empty sampleProperties "nope").1
        (-1) none (by decide) (by decide)).2⟩,
    ⟨by decide,
      ((property_get_absent_property_get_string_empty sampleProperties "nope").2.1
        (-1) none (by decide) (by decide)).2⟩,
    ⟨by decide, by decide,
      ((property_get_absent_property_get_string_empty sampleProperties "volume").2.2.1
        1 "50.000000" (by decide) (by decide)).2⟩,
    ⟨by decide,
      ((property_get_absent_property_get_string_empty sampleProperties "volume").2.2.2.1
        1 "50%" (by decide) (by decide)).2⟩⟩

/-! ## Theorems: `send_command` -/

/-- C4: `send_command(s)` raises a script-level error exactly when the command parser rejects
`s`, and then the command queue is unchanged; otherwise it appends exactly one command to the
queue, the one the parser gives for `s`, and returns zero values. -/
theorem send_command_enqueues_parsed {Cmd : Type}
    (mp_input_parse_cmd : String → String → Option Cmd) (ictx : input_ctx Cmd) (s : String) :
    ((∃ msg, (send_command mp_input_parse_cmd ictx s).2 = HostOutcome.raises msg)
        ↔ mp_input_parse_cmd s "<lua>" = none)
    ∧ (mp_input_parse_cmd s "<lua>" = none →
        send_command mp_input_parse_cmd ictx s
          = (ictx, HostOutcome.raises "error parsing command"))
    ∧ (∀ cmd, mp_input_parse_cmd s "<lua>" = some cmd →
        send_command mp_input_parse_cmd ictx s
          = (⟨ictx.cmd_queue ++ [cmd]⟩, HostOutcome.returns 0)) := by
  cases h : mp_input_parse_cmd s "<lua>" with
  | none => simp [send_command, h]
  | some cmd => simp [send_command, h, mp_input_queue_cmd]

theorem send_command_enqueues_parsed_witness :
    (sampleParser "" "<lua>" = none
      ∧ send_command sampleParser ⟨[[]]⟩ ""
          = (⟨[[]]⟩, HostOutcome.raises "error parsing command"))
    ∧ (sampleParser "quit" "<lua>" = some ['q', 'u', 'i', 't']
      ∧ send_command sampleParser ⟨[[]]⟩ "quit"
          = (⟨[[]] ++ [['q', 'u', 'i', 't']]⟩, HostOutcome.returns 0)) :=
  ⟨⟨by decide, (send_command_enqueues_parsed sampleParser ⟨[[]]⟩ "").2.1 (by decide)⟩,
    ⟨by decide,
      (send_command_enqueues_parsed sampleParser ⟨[[]]⟩ "quit").2.2 _ (by decide)⟩⟩

/-! ## Theorems: `get_chapter_list` -/


theorem chapter_body_eq (ch : ChapterTable) (n : Int) (L : lua_State) (h : Nat)
    (lt : LuaTable) (rest : List LuaValue)
    (hs : L.stack = LuaValue.table h :: rest) (hh : L.mem.heap[h]? = some lt) :
    chapter_body ch n L =
      some { L with
        mem := { L.mem with
          heap := (L.mem.heap ++ [[(LuaValue.string "time", LuaValue.number (ch.chapter_start_time n)),
                     (LuaValue.string "name", LuaValue.string (ch.chapter_display_name n))]]).set h
                    (lt.set (LuaValue.integer (n + 1)) (LuaValue.table L.mem.heap.length)) } } := by
  have hlt : h < L.mem.heap.length := by
    rcases List.getElem?_eq_some_iff.mp hh with ⟨hl, _⟩
    exact hl
  simp [chapter_body, lua_newtable, lua_pushnumber, lua_pushstring, lua_pushinteger, push,
    lua_setfield, lua_insert, lua_settable, tableLoc, stackAt, depth, readTable, writeTable, hs,
    LUA_REGISTRYINDEX, LUA_GLOBALSINDEX, LuaTable.set, Nat.lt_succ_of_lt hlt,
    List.getElem?_append_left hlt, hh]

theorem spec_chapter_list_succ (base n : Nat) :
    spec_chapter_list base (n + 1) =
      spec_chapter_list base n ++ [(LuaValue.integer ((n : Int) + 1), LuaValue.table (base + 1 + n))] := by
  simp [spec_chapter_list, List.range_succ]

theorem spec_chapter_list_keys (base n : Nat) (e : LuaValue × LuaValue)
    (he : e ∈ spec_chapter_list base n) : ∃ i, i < n ∧ e.1 = LuaValue.integer ((i : Int) + 1) := by
  simp only [spec_chapter_list, List.mem_map, List.mem_range] at he
  rcases he with ⟨i, hi, rfl⟩
  exact ⟨i, hi, rfl⟩

theorem spec_chapter_list_set (base n : Nat) :
    LuaTable.set (spec_chapter_list base n) (LuaValue.integer ((n : Int) + 1))
        (LuaValue.table (base + 1 + n)) = spec_chapter_list base (n + 1) := by
  have hf : List.filter (fun e => decide (e.1 ≠ LuaValue.integer ((n : Int) + 1)))
      (spec_chapter_list base n) = spec_chapter_list base n := by
    rw [List.filter_eq_self]
    intro e he
    rcases spec_chapter_list_keys base n e he with ⟨i, hi, hk⟩
    simp only [hk, ne_eq, LuaValue.integer.injEq, decide_eq_true_eq]
    omega
  simp only [LuaTable.set, hf, spec_chapter_list_succ]
  simp

theorem chapter_loop_eq (ch : ChapterTable) (num : Nat) :
    ∀ (fuel n : Nat) (L : lua_State) (H : List LuaTable) (rest : List LuaValue),
      n + fuel = num →
      L.stack = LuaValue.table H.length :: rest →
      L.mem.heap = H ++ spec_chapter_list H.length n
                          :: (List.range n).map (spec_chapter_record ch) →
      chapter_loop ch (num : Int) fuel (n : Int) L =
        some { L with
          mem := { L.mem with
            heap := H ++ spec_chapter_list H.length num
                          :: (List.range num).map (spec_chapter_record ch) } } := by
  intro fuel
  induction fuel with
  | zero =>
    intro n L H rest hn hs hh
    have : n = num := by omega
    subst this
    simp [chapter_loop, ← hh]
  | succ fuel ih =>
    intro n L H rest hn hs hh
    have hlt : (n : Int) < (num : Int) := by omega
    have hget : L.mem.heap[H.length]? = some (spec_chapter_list H.length n) := by
      rw [hh, List.getElem?_append_right (le_refl _)]; simp
    have hlen : L.mem.heap.length = H.length + 1 + n := by
      rw [hh]; simp; omega
    rw [chapter_loop, if_pos hlt, chapter_body_eq ch n L H.length _ rest hs hget]
    simp only
    have hcast : ((n : Int) + 1) = ((n + 1 : Nat) : Int) := by push_cast; rfl
    rw [hcast]
    rw [ih (n + 1) _ H rest (by omega) (by simpa using hs)]
    · simp only [hlen]
      rw [← hcast, spec_chapter_list_set, hh]
      simp [List.range_succ, spec_chapter_record]

theorem get_chapter_list_eq (ch : ChapterTable) (L : lua_State) (n : Nat)
    (hn : ch.get_chapter_count = (n : Int)) :
    get_chapter_list ch L =
      some ({ L with
              stack := LuaValue.table L.mem.heap.length :: L.stack
              mem := { L.mem with
                heap := L.mem.heap ++ spec_chapter_list L.mem.heap.length n
                          :: (List.range n).map (spec_chapter_record ch) } }, 1) := by
  have h := chapter_loop_eq ch n n 0 (lua_newtable L) L.mem.heap L.stack (by omega)
    (by simp [lua_newtable]) (by simp [lua_newtable, spec_chapter_list])
  simp only [get_chapter_list, hn, Int.toNat_ofNat]
  simp only [Nat.cast_zero] at h
  rw [h]
  simp [lua_newtable]

theorem spec_chapter_list_find (base : Nat) :
    ∀ (n i : Nat), i < n →
      (spec_chapter_list base n).find? (fun e => decide (e.1 = LuaValue.integer ((i : Int) + 1)))
        = some (LuaValue.integer ((i : Int) + 1), LuaValue.table (base + 1 + i)) := by
  intro n
  induction n with
  | zero => intro i hi; omega
  | succ n ih =>
    intro i hi
    rw [spec_chapter_list_succ, List.find?_append]
    by_cases hin : i < n
    · rw [ih i hin]; rfl
    · have hi2 : i = n := by omega
      subst hi2
      have hnone : (spec_chapter_list base i).find?
          (fun e => decide (e.1 = LuaValue.integer ((i : Int) + 1))) = none := by
        rw [List.find?_eq_none]
        intro e he
        rcases spec_chapter_list_keys base i e he with ⟨j, hj, hk⟩
        simp only [hk, LuaValue.integer.injEq, decide_eq_true_eq]
        omega
      rw [hnone]
      simp

theorem spec_chapter_list_get (base n i : Nat) (hi : i < n) :
    LuaTable.get (spec_chapter_list base n) (LuaValue.integer ((i : Int) + 1))
      = LuaValue.table (base + 1 + i) := by
  simp only [LuaTable.get, spec_chapter_list_find base n i hi]

/-- C5: with `n` chapters in the chapter table, `get_chapter_list` returns exactly one value,
the table it pushed on top of what was on the stack. The keys of that table are exactly
`1 .. n`, in this order, and for every `i < n` the entry at key `i + 1` is a table whose
content is `{time = chapter_start_time(i), name = chapter_display_name(i)}`; with `n = 0` the
table is empty. The stack is one slot higher than on entry. -/
theorem get_chapter_list_sequence (ch : ChapterTable) (L : lua_State) (n : Nat)
    (hn : ch.get_chapter_count = (n : Int)) :
    ∃ (L1 : lua_State) (lst : LuaTable),
      get_chapter_list ch L = some (L1, 1)
      ∧ L1.stack = LuaValue.table L.mem.heap.length :: L.stack
      ∧ lua_gettop L1 = lua_gettop L + 1
      ∧ L1.mem.heap[L.mem.heap.length]? = some lst
      ∧ lst.map Prod.fst = (List.range n).map (fun (i : Nat) => LuaValue.integer ((i : Int) + 1))
      ∧ (∀ (i : Nat), i < n →
          ∃ r, LuaTable.get lst (LuaValue.integer ((i : Int) + 1)) = LuaValue.table r
            ∧ L1.mem.heap[r]? = some (spec_chapter_record ch i))
      ∧ (n = 0 → lst = [])
      ∧ (∀ r, r < L.mem.heap.length → L1.mem.heap[r]? = L.mem.heap[r]?)
      ∧ L1.mem.registry = L.mem.registry ∧ L1.mem.globals = L.mem.globals := by
  refine ⟨_, spec_chapter_list L.mem.heap.length n, get_chapter_list_eq ch L n hn, rfl, ?_, ?_,
    ?_, ?_, ?_, ?_, rfl, rfl⟩
  · simp [lua_gettop]
  · simp only
    rw [List.getElem?_append_right (le_refl _)]
    simp
  · simp [spec_chapter_list]
  · intro i hi
    refine ⟨L.mem.heap.length + 1 + i, spec_chapter_list_get _ n i hi, ?_⟩
    simp only
    rw [List.getElem?_append_right (by omega)]
    have : L.mem.heap.length + 1 + i - L.mem.heap.length = i + 1 := by omega
    rw [this]
    simp [hi]
  · intro h0
    subst h0
    rfl
  · intro r hr
    simp only
    rw [List.getElem?_append_left hr]

theorem get_chapter_list_sequence_witness :
    sampleChapters.get_chapter_count = ((2 : Nat) : Int)
    ∧ ∃ (L1 : lua_State) (lst : LuaTable),
      get_chapter_list sampleChapters (fresh_state 0) = some (L1, 1)
      ∧ L1.stack = LuaValue.table (fresh_state 0).mem.heap.length :: (fresh_state 0).stack
      ∧ lua_gettop L1 = lua_gettop (fresh_state 0) + 1
      ∧ L1.mem.heap[(fresh_state 0).mem.heap.length]? = some lst
      ∧ lst.map Prod.fst
          = (List.range 2).map (fun (i : Nat) => LuaValue.integer ((i : Int) + 1))
      ∧ (∀ (i : Nat), i < 2 →
          ∃ r, LuaTable.get lst (LuaValue.integer ((i : Int) + 1)) = LuaValue.table r
            ∧ L1.mem.heap[r]? = some (spec_chapter_record sampleChapters i))
      ∧ (2 = 0 → lst = [])
      ∧ (∀ r, r < (fresh_state 0).mem.heap.length →
          L1.mem.heap[r]? = (fresh_state 0).mem.heap[r]?)
      ∧ L1.mem.registry = (fresh_state 0).mem.registry
      ∧ L1.mem.globals = (fresh_state 0).mem.globals :=
  ⟨rfl, get_chapter_list_sequence sampleChapters (fresh_state 0) 2 rfl⟩

/-! ## Theorems: `get_timer` -/

theorem unsigned_sub_GetTimerMS (t0 t : Nat) (h0 : t0 ≤ t) (h : t - t0 < 4294967296) :
    unsigned_sub (GetTimerMS t) (GetTimerMS t0) = t - t0 := by
  unfold unsigned_sub GetTimerMS
  omega

/-- C6, as stated, fails: with the start taken at clock count `0`, the reading at count
`4294967295` gives `4294967.295` seconds and the later reading at count `4294967296`, where
the `unsigned int` has wrapped around, gives `0`. -/
theorem get_timer_monotone_counterexample :
    0 ≤ 4294967295 ∧ 4294967295 ≤ 4294967296
    ∧ ¬ (get_timer (GetTimerMS 0) (GetTimerMS 4294967295)
          ≤ get_timer (GetTimerMS 0) (GetTimerMS 4294967296)) := by
  refine ⟨by decide, by decide, ?_⟩
  have h1 : unsigned_sub (GetTimerMS 4294967295) (GetTimerMS 0) = 4294967295 := by decide
  have h2 : unsigned_sub (GetTimerMS 4294967296) (GetTimerMS 0) = 0 := by decide
  rw [get_timer, get_timer, h1, h2]
  norm_num

/-- C6, amended: within one session `get_timer` is non-decreasing as long as fewer than `2^32`
milliseconds have passed since initialization: for a start taken at clock count `t0` and two
readings at counts `t1 ≤ t2` with `t0 ≤ t1` and `t2 - t0 < 2^32`, the value returned at the
second reading is at least the value returned at the first. -/
theorem get_timer_monotone (t0 t1 t2 : Nat) (h01 : t0 ≤ t1) (h12 : t1 ≤ t2)
    (hspan : t2 - t0 < 4294967296) :
    get_timer (GetTimerMS t0) (GetTimerMS t1) ≤ get_timer (GetTimerMS t0) (GetTimerMS t2) := by
  have e1 := unsigned_sub_GetTimerMS t0 t1 h01 (by omega)
  have e2 := unsigned_sub_GetTimerMS t0 t2 (by omega) hspan
  unfold get_timer
  rw [e1, e2]
  have hle : ((t1 - t0 : Nat) : ℚ) ≤ ((t2 - t0 : Nat) : ℚ) := by
    exact_mod_cast (by omega : t1 - t0 ≤ t2 - t0)
  exact div_le_div_of_nonneg_right hle (by norm_num)

theorem get_timer_monotone_witness :
    4294967000 ≤ 4294967290 ∧ 4294967290 ≤ 4294968000 ∧ 4294968000 - 4294967000 < 4294967296
    ∧ get_timer (GetTimerMS 4294967000) (GetTimerMS 4294967290)
        ≤ get_timer (GetTimerMS 4294967000) (GetTimerMS 4294968000) :=
  ⟨by decide, by decide, by decide,
    get_timer_monotone 4294967000 4294967290 4294968000 (by decide) (by decide) (by decide)⟩

/-! ## Theorems: the script runtime -/

theorem mp_lua_run_eq (env : LuaEnv) (mpctx : MPContext) (ctx : lua_ctx) (source : String)
    (hctx : mpctx.lua_ctx = some ctx) (hstack : ctx.state.stack = []) :
    mp_lua_run env mpctx source =
      some { mpctx with lua_ctx := some { ctx with
        state := spec_after_chunk env ctx.state (env.loadstring source ctx.state.mem) } } := by
  rcases h : env.loadstring source ctx.state.mem with ⟨m, e | f⟩
  · simp [mp_lua_run, hctx, luaL_loadstring, h, LUA_ERRSYNTAX, report_error_eq _ _ e [],
      hstack, lua_gettop, spec_after_chunk]
  · rcases h2 : env.call f [] m with ⟨m2, _ | e⟩
    · simp [mp_lua_run, hctx, luaL_loadstring, h, lua_pcall, h2, hstack, lua_gettop,
        spec_after_chunk]
    · simp [mp_lua_run, hctx, luaL_loadstring, h, lua_pcall, h2, hstack, lua_gettop,
        spec_after_chunk, LUA_ERRRUN, report_error_eq _ _ e []]

theorem mp_lua_load_file_eq (env : LuaEnv) (mpctx : MPContext) (ctx : lua_ctx)
    (fname : String) (hctx : mpctx.lua_ctx = some ctx) (hstack : ctx.state.stack = []) :
    mp_lua_load_file env mpctx fname =
      some { mpctx with lua_ctx := some { ctx with
        state := spec_after_chunk env ctx.state (env.loadfile fname ctx.state.mem) } } := by
  rcases h : env.loadfile fname ctx.state.mem with ⟨m, e | f⟩
  · simp [mp_lua_load_file, hctx, luaL_loadfile, h, LUA_ERRSYNTAX, report_error_eq _ _ e [],
      hstack, lua_gettop, spec_after_chunk]
  · rcases h2 : env.call f [] m with ⟨m2, _ | e⟩
    · simp [mp_lua_load_file, hctx, luaL_loadfile, h, lua_pcall, h2, hstack, lua_gettop,
        spec_after_chunk]
    · simp [mp_lua_load_file, hctx, luaL_loadfile, h, lua_pcall, h2, hstack, lua_gettop,
        spec_after_chunk, LUA_ERRRUN, report_error_eq _ _ e []]

theorem spec_after_chunk_stack (env : LuaEnv) (L : lua_State)
    (loaded : Interp × Except LuaValue LuaValue) :
    (spec_after_chunk env L loaded).stack = L.stack
    ∧ (spec_after_chunk env L loaded).handle = L.handle := by
  rcases loaded with ⟨m, e | f⟩
  · simp [spec_after_chunk]
  · rcases h2 : env.call f [] m with ⟨m2, _ | e⟩ <;> simp [spec_after_chunk, h2]

theorem report_error_lit (env : LuaEnv) (hd : Nat) (e : LuaValue) (rest : List LuaValue)
    (m : Interp) (c : List (LuaValue × List LuaValue)) (ms : List String) :
    report_error env ⟨hd, e :: rest, m, c, ms⟩
      = some ⟨hd, rest, m, c, ms ++ [spec_error_line env e]⟩ := by
  rw [report_error_eq env _ e rest rfl]

theorem mp_lua_load_file_lit (env : LuaEnv) (self : Nat) (lf : Option String)
    (closed : List Nat) (hd : Nat) (m : Interp) (c : List (LuaValue × List LuaValue))
    (ms : List String) (st : Nat) (fname : String) :
    mp_lua_load_file env ⟨self, lf, some ⟨⟨hd, [], m, c, ms⟩, st⟩, closed⟩ fname
      = some ⟨self, lf,
          some ⟨spec_after_chunk env ⟨hd, [], m, c, ms⟩ (env.loadfile fname m), st⟩,
          closed⟩ := by
  rw [mp_lua_load_file_eq env _ ⟨⟨hd, [], m, c, ms⟩, st⟩ fname rfl rfl]

theorem mp_lua_init_eq (env : LuaEnv) (lua_defaults : String) (handle clock : Nat)
    (mpctx : MPContext) :
    mp_lua_init env lua_defaults (some handle) clock mpctx =
      some { mpctx with
        lua_ctx := some { state := spec_ready_state env lua_defaults handle mpctx
                          start_time := GetTimerMS clock } } := by
  have h1 : lua_setfield (lua_pushlightuserdata (fresh_state handle) mpctx.self)
      LUA_REGISTRYINDEX "mpctx"
      = some ⟨handle, [],
          ⟨[], [(LuaValue.string "mpctx", LuaValue.lightuserdata mpctx.self)], []⟩, [], []⟩ := by
    simp [lua_setfield, lua_pushlightuserdata, push, fresh_state, tableLoc, readTable,
      writeTable, LuaTable.set]
  obtain ⟨M, hM⟩ : ∃ M, env.openlibs
      ⟨[], [(LuaValue.string "mpctx", LuaValue.lightuserdata mpctx.self)], []⟩ = M := ⟨_, rfl⟩
  have h2 : lua_pushvalue (lua_newtable (luaL_openlibs env ⟨handle, [],
      ⟨[], [(LuaValue.string "mpctx", LuaValue.lightuserdata mpctx.self)], []⟩, [], []⟩)) (-1)
      = some ⟨handle, [LuaValue.table M.heap.length, LuaValue.table M.heap.length],
          ⟨M.heap ++ [[]], M.registry, M.globals⟩, [], []⟩ := by
    simp [lua_pushvalue, lua_newtable, luaL_openlibs, hM, stackAt, depth, push]
  have h3 : lua_setglobal ⟨handle, [LuaValue.table M.heap.length, LuaValue.table M.heap.length],
          ⟨M.heap ++ [[]], M.registry, M.globals⟩, [], []⟩ "mp"
      = some ⟨handle, [LuaValue.table M.heap.length],
          ⟨M.heap ++ [[]], M.registry,
            M.globals.set (LuaValue.string "mp") (LuaValue.table M.heap.length)⟩, [], []⟩ := by
    simp [lua_setglobal, lua_setfield, tableLoc, readTable, writeTable, LUA_GLOBALSINDEX,
      LUA_REGISTRYINDEX]
  have h4 := add_functions_eq ⟨handle, [LuaValue.table M.heap.length],
          ⟨M.heap ++ [[]], M.registry,
            M.globals.set (LuaValue.string "mp") (LuaValue.table M.heap.length)⟩, [], []⟩
          M.heap.length [] [] rfl (by simp)
  have h5 : lua_pop ⟨handle, [LuaValue.table M.heap.length],
          ⟨(M.heap ++ [[]]).set M.heap.length (spec_host_api []), M.registry,
            M.globals.set (LuaValue.string "mp") (LuaValue.table M.heap.length)⟩, [], []⟩ 1
      = some (spec_init_state env mpctx.self handle) := by
    simp [lua_pop, spec_init_state, hM]
  simp only [mp_lua_init, h1, h2, h3, h4, h5, Option.bind_eq_bind, Option.some_bind,
    spec_ready_state]
  have hst : (spec_init_state env mpctx.self handle).stack = [] := rfl
  generalize spec_init_state env mpctx.self handle = L0 at hst
  obtain ⟨hd, st, m0, c, ms⟩ := L0
  simp only at hst
  subst hst
  rcases h : env.loadstring lua_defaults m0 with ⟨m, e | f⟩
  · simp only [luaL_loadstring, h, LUA_ERRSYNTAX, report_error_lit, lua_gettop,
      spec_after_chunk]
    simp only [ne_eq, OfNat.ofNat_ne_zero, not_false_eq_true, ↓reduceIte, Option.some_bind,
      List.length_nil, Nat.cast_zero]
    cases hf : mpctx.lua_file with
    | none => rfl
    | some fname => simp only [mp_lua_load_file_lit, spec_after_chunk]
  · rcases h2 : env.call f [] m with ⟨m2, _ | e⟩
    · simp only [luaL_loadstring, h, lua_pcall, h2, lua_gettop, spec_after_chunk,
        List.drop_zero, List.take_zero, List.reverse_nil]
      simp only [ne_eq, not_true_eq_false, ↓reduceIte, Option.some_bind, decide_False,
        List.length_nil, Nat.cast_zero, Bool.false_eq_true]
      cases hf : mpctx.lua_file with
      | none => rfl
      | some fname => simp only [mp_lua_load_file_lit, spec_after_chunk]
    · simp only [luaL_loadstring, h, lua_pcall, h2, lua_gettop, spec_after_chunk,
        List.drop_zero, List.take_zero, List.reverse_nil, LUA_ERRRUN]
      simp only [ne_eq, not_true_eq_false, ↓reduceIte, Option.some_bind, OfNat.ofNat_ne_zero,
        not_false_eq_true, decide_True, report_error_lit,
        List.length_nil, Nat.cast_zero]
      cases hf : mpctx.lua_file with
      | none => rfl
      | some fname => simp only [mp_lua_load_file_lit, spec_after_chunk]

theorem mp_lua_update_eq (env : LuaEnv) (mpctx : MPContext) (ctx : lua_ctx)
    (hctx : mpctx.lua_ctx = some ctx) :
    mp_lua_update env mpctx =
      some { mpctx with lua_ctx := some { ctx with
        state := spec_after_update env ctx.state } } := by
  obtain ⟨L, st⟩ := ctx
  obtain ⟨hd, stack, m, c, ms⟩ := L
  by_cases hraw : LuaTable.get m.globals (LuaValue.string "mp_update") = LuaValue.nil
  · rcases hi : env.index_event TableLoc.globals (LuaValue.string "mp_update") m
      with _ | ⟨m1, e | v⟩
    · simp [mp_lua_update, hctx, lua_cpcall, run_update, lua_getglobal, lua_getfield, tableLoc,
        readTable, push, LUA_GLOBALSINDEX, LUA_REGISTRYINDEX, lua_isnil, stackAt, depth, hraw,
        hi, spec_after_update, spec_update_lookup, spec_update_hook]
    · simp [mp_lua_update, hctx, lua_cpcall, run_update, lua_getglobal, lua_getfield, tableLoc,
        readTable, push, LUA_GLOBALSINDEX, LUA_REGISTRYINDEX, hraw,
        hi, spec_after_update, spec_update_lookup, spec_update_hook, LUA_ERRRUN,
        report_error_lit]
    · by_cases hv : v = LuaValue.nil
      · simp [mp_lua_update, hctx, lua_cpcall, run_update, lua_getglobal, lua_getfield,
          tableLoc, readTable, push, LUA_GLOBALSINDEX, LUA_REGISTRYINDEX, lua_isnil, stackAt,
          depth, hraw, hi, hv, spec_after_update, spec_update_lookup, spec_update_hook]
      · rcases h2 : env.call v [] m1 with ⟨m2, _ | e⟩
        · simp [mp_lua_update, hctx, lua_cpcall, run_update, lua_getglobal, lua_getfield,
            tableLoc, readTable, push, LUA_GLOBALSINDEX, LUA_REGISTRYINDEX, lua_isnil, stackAt,
            depth, hraw, hi, hv, spec_after_update, spec_update_lookup, spec_update_hook,
            lua_call, h2]
        · simp [mp_lua_update, hctx, lua_cpcall, run_update, lua_getglobal, lua_getfield,
            tableLoc, readTable, push, LUA_GLOBALSINDEX, LUA_REGISTRYINDEX, lua_isnil, stackAt,
            depth, hraw, hi, hv, spec_after_update, spec_update_lookup, spec_update_hook,
            lua_call, h2, LUA_ERRRUN, report_error_lit]
  · rcases h2 : env.call (LuaTable.get m.globals (LuaValue.string "mp_update")) [] m
      with ⟨m2, _ | e⟩
    · simp [mp_lua_update, hctx, lua_cpcall, run_update, lua_getglobal, lua_getfield, tableLoc,
        readTable, push, LUA_GLOBALSINDEX, LUA_REGISTRYINDEX, lua_isnil, stackAt, depth, hraw,
        spec_after_update, spec_update_lookup, spec_update_hook, lua_call, h2]
    · simp [mp_lua_update, hctx, lua_cpcall, run_update, lua_getglobal, lua_getfield, tableLoc,
        readTable, push, LUA_GLOBALSINDEX, LUA_REGISTRYINDEX, lua_isnil, stackAt, depth, hraw,
        spec_after_update, spec_update_lookup, spec_update_hook, lua_call, h2, LUA_ERRRUN,
        report_error_lit]

theorem spec_after_update_stack (env : LuaEnv) (L : lua_State) :
    (spec_after_update env L).stack = L.stack
    ∧ (spec_after_update env L).handle = L.handle := by
  unfold spec_after_update
  rcases hl : spec_update_lookup env L with ⟨m, e | hook⟩
  · simp
  · by_cases hnil : hook = LuaValue.nil
    · simp [hnil]
    · rcases h2 : env.call hook [] m with ⟨m2, _ | e⟩ <;> simp [hnil, h2]

theorem spec_ready_state_stack (env : LuaEnv) (lua_defaults : String) (handle : Nat)
    (mpctx : MPContext) :
    (spec_ready_state env lua_defaults handle mpctx).stack = []
    ∧ (spec_ready_state env lua_defaults handle mpctx).handle = handle := by
  unfold spec_ready_state
  cases mpctx.lua_file with
  | none =>
    simp only [spec_after_chunk_stack]
    exact ⟨rfl, rfl⟩
  | some fname =>
    simp only [spec_after_chunk_stack]
    exact ⟨rfl, rfl⟩

theorem reachable_stack_empty (env : LuaEnv) (lua_defaults : String) (mpctx : MPContext)
    (hr : Reachable env lua_defaults mpctx) :
    ∀ ctx, mpctx.lua_ctx = some ctx → ctx.state.stack = [] := by
  induction hr with
  | start mpctx h => intro ctx hctx; rw [h] at hctx; cases hctx
  | init mpctx next newstate clock _ h ih =>
    intro ctx hctx
    cases newstate with
    | none =>
      simp only [mp_lua_init, Option.some.injEq] at h
      subst h
      cases hctx
    | some handle =>
      rw [mp_lua_init_eq, Option.some.injEq] at h
      subst h
      simp only [Option.some.injEq] at hctx
      subst hctx
      exact (spec_ready_state_stack env lua_defaults handle mpctx).1
  | run mpctx next source _ h ih =>
    intro ctx hctx
    cases hc : mpctx.lua_ctx with
    | none =>
      simp only [mp_lua_run, hc, Option.some.injEq] at h
      subst h
      rw [hc] at hctx; cases hctx
    | some c0 =>
      rw [mp_lua_run_eq env mpctx c0 source hc (ih c0 hc), Option.some.injEq] at h
      subst h
      simp only [Option.some.injEq] at hctx
      subst hctx
      simp only [spec_after_chunk_stack]
      exact ih c0 hc
  | load_file mpctx next fname _ h ih =>
    intro ctx hctx
    cases hc : mpctx.lua_ctx with
    | none =>
      simp only [mp_lua_load_file, hc, Option.some.injEq] at h
      subst h
      rw [hc] at hctx; cases hctx
    | some c0 =>
      rw [mp_lua_load_file_eq env mpctx c0 fname hc (ih c0 hc), Option.some.injEq] at h
      subst h
      simp only [Option.some.injEq] at hctx
      subst hctx
      simp only [spec_after_chunk_stack]
      exact ih c0 hc
  | update mpctx next _ h ih =>
    intro ctx hctx
    cases hc : mpctx.lua_ctx with
    | none =>
      simp only [mp_lua_update, hc, Option.some.injEq] at h
      subst h
      rw [hc] at hctx; cases hctx
    | some c0 =>
      rw [mp_lua_update_eq env mpctx c0 hc, Option.some.injEq] at h
      subst h
      simp only [Option.some.injEq] at hctx
      subst hctx
      simp only [spec_after_update_stack]
      exact ih c0 hc
  | uninit mpctx _ ih =>
    intro ctx hctx
    cases hc : mpctx.lua_ctx with
    | none => simp [mp_lua_uninit, hc] at hctx
    | some c0 => simp [mp_lua_uninit, hc] at hctx
  | configure mpctx lua_file _ ih =>
    intro ctx hctx
    exact ih ctx hctx

/-- C7: with the script context present and the interpreter stack empty on entry,
`mp_lua_run` (for every source text) and `mp_lua_load_file` (for every file name) return with
the stack empty again, so the final `assert` holds, in each of the three outcomes; a chunk
that does not compile and a chunk that raises an error are reported once, a chunk that runs
is not reported. -/
theorem mp_lua_run_load_file_stack_balanced (env : LuaEnv) (mpctx : MPContext) (ctx : lua_ctx)
    (hctx : mpctx.lua_ctx = some ctx) (hstack : ctx.state.stack = []) :
    (∀ source : String, ∃ L : lua_State,
        mp_lua_run env mpctx source
          = some { mpctx with lua_ctx := some { ctx with state := L } }
        ∧ L.stack = [] ∧ lua_gettop L = 0
        ∧ (∀ m e, env.loadstring source ctx.state.mem = (m, Except.error e) →
            L.msgs = ctx.state.msgs ++ [spec_error_line env e])
        ∧ (∀ m f m2 e, env.loadstring source ctx.state.mem = (m, Except.ok f) →
            env.call f [] m = (m2, some e) →
            L.msgs = ctx.state.msgs ++ [spec_error_line env e])
        ∧ (∀ m f m2, env.loadstring source ctx.state.mem = (m, Except.ok f) →
            env.call f [] m = (m2, none) → L.msgs = ctx.state.msgs))
    ∧ (∀ fname : String, ∃ L : lua_State,
        mp_lua_load_file env mpctx fname
          = some { mpctx with lua_ctx := some { ctx with state := L } }
        ∧ L.stack = [] ∧ lua_gettop L = 0
        ∧ (∀ m e, env.loadfile fname ctx.state.mem = (m, Except.error e) →
            L.msgs = ctx.state.msgs ++ [spec_error_line env e])
        ∧ (∀ m f m2 e, env.loadfile fname ctx.state.mem = (m, Except.ok f) →
            env.call f [] m = (m2, some e) →
            L.msgs = ctx.state.msgs ++ [spec_error_line env e])
        ∧ (∀ m f m2, env.loadfile fname ctx.state.mem = (m, Except.ok f) →
            env.call f [] m = (m2, none) → L.msgs = ctx.state.msgs)) := by
  have key : ∀ loaded : Interp × Except LuaValue LuaValue,
      (spec_after_chunk env ctx.state loaded).stack = []
      ∧ lua_gettop (spec_after_chunk env ctx.state loaded) = 0
      ∧ (∀ m e, loaded = (m, Except.error e) →
          (spec_after_chunk env ctx.state loaded).msgs
            = ctx.state.msgs ++ [spec_error_line env e])
      ∧ (∀ m f m2 e, loaded = (m, Except.ok f) → env.call f [] m = (m2, some e) →
          (spec_after_chunk env ctx.state loaded).msgs
            = ctx.state.msgs ++ [spec_error_line env e])
      ∧ (∀ m f m2, loaded = (m, Except.ok f) → env.call f [] m = (m2, none) →
          (spec_after_chunk env ctx.state loaded).msgs = ctx.state.msgs) := by
    intro loaded
    have hs : (spec_after_chunk env ctx.state loaded).stack = [] := by
      rw [(spec_after_chunk_stack env ctx.state loaded).1, hstack]
    refine ⟨hs, by simp [lua_gettop, hs], ?_, ?_, ?_⟩
    · intro m e h
      subst h
      simp [spec_after_chunk]
    · intro m f m2 e h h2
      subst h
      simp [spec_after_chunk, h2]
    · intro m f m2 h h2
      subst h
      simp [spec_after_chunk, h2]
  constructor
  · intro source
    exact ⟨_, mp_lua_run_eq env mpctx ctx source hctx hstack, key _⟩
  · intro fname
    exact ⟨_, mp_lua_load_file_eq env mpctx ctx fname hctx hstack, key _⟩

theorem mp_lua_run_load_file_stack_balanced_witness :
    sampleContext.lua_ctx = some { state := fresh_state 5, start_time := 0 }
    ∧ (fresh_state 5).stack = []
    ∧ (∃ L : lua_State,
        mp_lua_run sampleEnv sampleContext "syntax error here"
          = some { sampleContext with lua_ctx := some { state := L, start_time := 0 } }
        ∧ L.stack = [])
    ∧ (∃ L : lua_State,
        mp_lua_load_file sampleEnv sampleContext "bad"
          = some { sampleContext with lua_ctx := some { state := L, start_time := 0 } }
        ∧ L.stack = []) :=
  ⟨rfl, rfl,
    (((mp_lua_run_load_file_stack_balanced sampleEnv sampleContext
        { state := fresh_state 5, start_time := 0 } rfl rfl).1 "syntax error here").imp
      (fun _ h => ⟨h.1, h.2.1⟩)),
    (((mp_lua_run_load_file_stack_balanced sampleEnv sampleContext
        { state := fresh_state 5, start_time := 0 } rfl rfl).2 "bad").imp
      (fun _ h => ⟨h.1, h.2.1⟩))⟩

/-- C9: the presence of the script context follows the lifecycle of the spec. From every
player context the program can be in: `mp_lua_init` returns with the script context absent,
and nothing handed to `lua_close`, when the interpreter cannot be created, and with it present,
holding the new interpreter, when it can, whatever the bundled and the user script do;
`mp_lua_uninit` leaves it absent, changes nothing when it is absent already, and is idempotent;
`mp_lua_run`, `mp_lua_load_file` and `mp_lua_update` change nothing at all when it is absent,
and when it is present they return with it present, with the same interpreter and start time,
and with nothing handed to `lua_close`. -/
theorem script_context_lifecycle (env : LuaEnv) (lua_defaults : String) (mpctx : MPContext)
    (hr : Reachable env lua_defaults mpctx) :
    (∀ clock, mp_lua_init env lua_defaults none clock mpctx
        = some { mpctx with lua_ctx := none })
    ∧ (∀ handle clock, ∃ L : lua_State,
        mp_lua_init env lua_defaults (some handle) clock mpctx
          = some { mpctx with lua_ctx := some { state := L, start_time := GetTimerMS clock } }
        ∧ L.handle = handle)
    ∧ (mp_lua_uninit mpctx).lua_ctx = none
    ∧ (mpctx.lua_ctx = none → mp_lua_uninit mpctx = mpctx)
    ∧ mp_lua_uninit (mp_lua_uninit mpctx) = mp_lua_uninit mpctx
    ∧ (mpctx.lua_ctx = none →
        (∀ source, mp_lua_run env mpctx source = some mpctx)
        ∧ (∀ fname, mp_lua_load_file env mpctx fname = some mpctx)
        ∧ mp_lua_update env mpctx = some mpctx)
    ∧ (∀ ctx, mpctx.lua_ctx = some ctx →
        (∀ source, ∃ L : lua_State,
          mp_lua_run env mpctx source
            = some { mpctx with lua_ctx := some { ctx with state := L } }
          ∧ L.handle = ctx.state.handle)
        ∧ (∀ fname, ∃ L : lua_State,
          mp_lua_load_file env mpctx fname
            = some { mpctx with lua_ctx := some { ctx with state := L } }
          ∧ L.handle = ctx.state.handle)
        ∧ (∃ L : lua_State,
          mp_lua_update env mpctx
            = some { mpctx with lua_ctx := some { ctx with state := L } }
          ∧ L.handle = ctx.state.handle)) := by
  refine ⟨?_, ?_, ?_, ?_, ?_, ?_, ?_⟩
  · intro clock
    rfl
  · intro handle clock
    exact ⟨_, mp_lua_init_eq env lua_defaults handle clock mpctx,
      (spec_ready_state_stack env lua_defaults handle mpctx).2⟩
  · cases h : mpctx.lua_ctx <;> simp [mp_lua_uninit, h]
  · intro h
    simp [mp_lua_uninit, h]
  · cases h : mpctx.lua_ctx <;> simp [mp_lua_uninit, h]
  · intro h
    refine ⟨?_, ?_, ?_⟩
    · intro source; simp [mp_lua_run, h]
    · intro fname; simp [mp_lua_load_file, h]
    · simp [mp_lua_update, h]
  · intro ctx hctx
    have hstack := reachable_stack_empty env lua_defaults mpctx hr ctx hctx
    refine ⟨?_, ?_, ?_⟩
    · intro source
      exact ⟨_, mp_lua_run_eq env mpctx ctx source hctx hstack,
        (spec_after_chunk_stack env ctx.state _).2⟩
    · intro fname
      exact ⟨_, mp_lua_load_file_eq env mpctx ctx fname hctx hstack,
        (spec_after_chunk_stack env ctx.state _).2⟩
    · exact ⟨_, mp_lua_update_eq env mpctx ctx hctx, (spec_after_update_stack env ctx.state).2⟩

theorem script_context_lifecycle_witness :
    Reachable sampleEnv "ok" sampleReady
    ∧ sampleReady.lua_ctx
        = some { state := spec_ready_state sampleEnv "ok" 5 sampleStart, start_time := 77 }
    ∧ (∃ L : lua_State,
        mp_lua_run sampleEnv sampleReady "bad"
          = some { sampleReady with lua_ctx := some { state := L, start_time := 77 } }
        ∧ L.handle = (spec_ready_state sampleEnv "ok" 5 sampleStart).handle)
    ∧ (mp_lua_uninit sampleReady).lua_ctx = none
    ∧ mp_lua_init sampleEnv "ok" none 0 sampleReady = some { sampleReady with lua_ctx := none } :=
  ⟨Reachable.init sampleStart sampleReady (some 5) 77 (Reachable.start _ rfl) (by decide),
    rfl,
    ((script_context_lifecycle sampleEnv "ok" sampleReady
      (Reachable.init sampleStart sampleReady (some 5) 77 (Reachable.start _ rfl)
        (by decide))).2.2.2.2.2.2
      { state := spec_ready_state sampleEnv "ok" 5 sampleStart, start_time := 77 } rfl).1 "bad",
    (script_context_lifecycle sampleEnv "ok" sampleReady
      (Reachable.init sampleStart sampleReady (some 5) 77 (Reachable.start _ rfl)
        (by decide))).2.2.1,
    (script_context_lifecycle sampleEnv "ok" sampleReady
      (Reachable.init sampleStart sampleReady (some 5) 77 (Reachable.start _ rfl)
        (by decide))).1 0⟩

/-! ## Theorems: `mplayer_put_key` -/

set_option maxRecDepth 20000

/-- C10, as stated, fails: the time test of `mplayer_put_key` is done on `double` values. With
`doubleclick_time = 300`, the last press of the first mouse button at `0.0` and the next press
at the double nearest to `0.3`, the time since the last press is below `300 / 1000` seconds
(the double nearest to `0.3` is smaller than `0.3`), the other three conditions hold as well,
and yet only the code itself is fed: `300 / 1000.0` is that same double, and the comparison
is strict. -/
theorem mplayer_put_key_feeds_counterexample :
    ¬ ((mp_fifo.mk 300 [] 2097312 ⟨0⟩).doubleclick_time ≠ 0
        ∧ int_and 538968224 (int_not sampleKeyCodes.MP_KEY_STATE_DOWN)
            ≥ sampleKeyCodes.MP_MOUSE_BTN0_DBL
        ∧ int_and 538968224 (int_not sampleKeyCodes.MP_KEY_STATE_DOWN)
            < sampleKeyCodes.MP_MOUSE_BTN_DBL_END)
    ∧ int_and 538968224 sampleKeyCodes.MP_KEY_STATE_DOWN ≠ 0
    ∧ int_and 538968224 (int_not sampleKeyCodes.MP_KEY_STATE_DOWN)
        = (mp_fifo.mk 300 [] 2097312 ⟨0⟩).last_key_down
    ∧ Double.value ⟨4599075939470750515⟩ - Double.value ⟨0⟩ < (300 : ℚ) / 1000
    ∧ sampleKeyCodes.MP_MOUSE_BTN0 ≤ int_and 538968224 (int_not sampleKeyCodes.MP_KEY_STATE_DOWN)
    ∧ int_and 538968224 (int_not sampleKeyCodes.MP_KEY_STATE_DOWN) ≤ sampleKeyCodes.MP_MOUSE_BTN2
    ∧ (mplayer_put_key sampleKeyCodes ⟨4599075939470750515⟩ ⟨300, [], 2097312, ⟨0⟩⟩
        538968224).input = [538968224] := by
  refine ⟨by decide, by decide, by decide, ?_, by decide, by decide, ?_⟩
  · have h1 : Double.value ⟨4599075939470750515⟩ = 5404319552844595 / 18014398509481984 := by
      have hs : (Double.mk 4599075939470750515).sign = false := by decide
      have hm : (Double.mk 4599075939470750515).mant = 5404319552844595 := by decide
      have he : (Double.mk 4599075939470750515).scale = -54 := by decide
      rw [Double.value, hs, hm, he]
      norm_num
    have h0 : Double.value ⟨0⟩ = 0 := by
      have hm : (Double.mk 0).mant = 0 := by decide
      rw [Double.value, hm]
      norm_num
    rw [h1, h0]
    norm_num
  · decide

/-- C10, amended: a key code that the filter for system double clicks does not drop is fed
exactly once, followed by the synthesized double-click code exactly when the code carries
`MP_KEY_STATE_DOWN`, the code without that flag equals `last_key_down`, the double
`now - last_down_time` compares below the double `doubleclick_time / 1000.0` (both computed
in `double` arithmetic, rounding to nearest) and the code without the flag lies in
`MP_MOUSE_BTN0 .. MP_MOUSE_BTN2`; the synthesized code is
`code - MP_MOUSE_BTN0 + MP_MOUSE_BTN0_DBL`. `last_key_down` and `last_down_time` become the
code without the flag and the current time when the code is not dropped and carries the flag,
and nothing changes in them otherwise; a dropped code changes nothing at all. -/
theorem mplayer_put_key_feeds (k : KeyCodes) (now : Double) (fifo : mp_fifo) (code : Int) :
    (¬ (fifo.doubleclick_time ≠ 0
          ∧ int_and code (int_not k.MP_KEY_STATE_DOWN) ≥ k.MP_MOUSE_BTN0_DBL
          ∧ int_and code (int_not k.MP_KEY_STATE_DOWN) < k.MP_MOUSE_BTN_DBL_END) →
        (mplayer_put_key k now fifo code).input =
            fifo.input ++ code ::
              (if int_and code k.MP_KEY_STATE_DOWN ≠ 0
                  ∧ int_and code (int_not k.MP_KEY_STATE_DOWN) = fifo.last_key_down
                  ∧ Double.lt (Double.sub now fifo.last_down_time)
                      (Double.div (Double.ofInt fifo.doubleclick_time) Double.thousand) = true
                  ∧ k.MP_MOUSE_BTN0 ≤ int_and code (int_not k.MP_KEY_STATE_DOWN)
                  ∧ int_and code (int_not k.MP_KEY_STATE_DOWN) ≤ k.MP_MOUSE_BTN2
                then [int_and code (int_not k.MP_KEY_STATE_DOWN)
                        - k.MP_MOUSE_BTN0 + k.MP_MOUSE_BTN0_DBL]
                else [])
        ∧ (mplayer_put_key k now fifo code).doubleclick_time = fifo.doubleclick_time
        ∧ (int_and code k.MP_KEY_STATE_DOWN ≠ 0 →
            (mplayer_put_key k now fifo code).last_key_down
                = int_and code (int_not k.MP_KEY_STATE_DOWN)
            ∧ (mplayer_put_key k now fifo code).last_down_time = now)
        ∧ (int_and code k.MP_KEY_STATE_DOWN = 0 →
            (mplayer_put_key k now fifo code).last_key_down = fifo.last_key_down
            ∧ (mplayer_put_key k now fifo code).last_down_time = fifo.last_down_time))
    ∧ ((fifo.doubleclick_time ≠ 0
          ∧ int_and code (int_not k.MP_KEY_STATE_DOWN) ≥ k.MP_MOUSE_BTN0_DBL
          ∧ int_and code (int_not k.MP_KEY_STATE_DOWN) < k.MP_MOUSE_BTN_DBL_END) →
        mplayer_put_key k now fifo code = fifo) := by
  constructor
  · intro hkeep
    by_cases hdown : int_and code k.MP_KEY_STATE_DOWN = 0
    · simp only [mplayer_put_key, if_neg hkeep, hdown, ne_eq, not_true_eq_false, if_false,
        false_and, mp_input_feed_key]
      simp
    · by_cases hlast : fifo.last_key_down = int_and code (int_not k.MP_KEY_STATE_DOWN)
      · by_cases htime : Double.lt (Double.sub now fifo.last_down_time)
            (Double.div (Double.ofInt fifo.doubleclick_time) Double.thousand) = true
        · by_cases hbtn : int_and code (int_not k.MP_KEY_STATE_DOWN) ≥ k.MP_MOUSE_BTN0
              ∧ int_and code (int_not k.MP_KEY_STATE_DOWN) ≤ k.MP_MOUSE_BTN2
          · have hb := hbtn
            simp only [ge_iff_le] at hb
            simp [mplayer_put_key, hkeep, hdown, mp_input_feed_key, put_double, hlast, htime,
              hbtn, hb.1, hb.2]
          · have hb : ¬ (k.MP_MOUSE_BTN0 ≤ int_and code (int_not k.MP_KEY_STATE_DOWN)
                ∧ int_and code (int_not k.MP_KEY_STATE_DOWN) ≤ k.MP_MOUSE_BTN2) := hbtn
            simp only [not_and] at hb
            simp [mplayer_put_key, hkeep, hdown, mp_input_feed_key, put_double, hlast, htime,
              hbtn, hb]
        · simp [mplayer_put_key, hkeep, hdown, mp_input_feed_key, hlast, htime]
      · have hlast2 : ¬ int_and code (int_not k.MP_KEY_STATE_DOWN) = fifo.last_key_down :=
          fun h => hlast h.symm
        simp [mplayer_put_key, hkeep, hdown, mp_input_feed_key, hlast, hlast2]
  · intro hdrop
    simp only [mplayer_put_key, if_pos hdrop]

theorem mplayer_put_key_feeds_witness :
    ¬ ((mp_fifo.mk 300 [] 2097312 ⟨4621819117588971520⟩).doubleclick_time ≠ 0
        ∧ int_and 538968224 (int_not sampleKeyCodes.MP_KEY_STATE_DOWN)
            ≥ sampleKeyCodes.MP_MOUSE_BTN0_DBL
        ∧ int_and 538968224 (int_not sampleKeyCodes.MP_KEY_STATE_DOWN)
            < sampleKeyCodes.MP_MOUSE_BTN_DBL_END)
    ∧ int_and 538968224 sampleKeyCodes.MP_KEY_STATE_DOWN ≠ 0
    ∧ (mplayer_put_key sampleKeyCodes ⟨4621875412584313651⟩
        ⟨300, [], 2097312, ⟨4621819117588971520⟩⟩ 538968224).input
        = [538968224, 2097344]
    ∧ (mplayer_put_key sampleKeyCodes ⟨4621875412584313651⟩
        ⟨300, [], 2097312, ⟨4621819117588971520⟩⟩ 538968224).last_key_down
        = 2097312
    ∧ (mplayer_put_key sampleKeyCodes ⟨4621875412584313651⟩
        ⟨300, [], 2097312, ⟨4621819117588971520⟩⟩ 538968224).last_down_time
        = ⟨4621875412584313651⟩ := by
  have hA : int_and 538968224 (int_not sampleKeyCodes.MP_KEY_STATE_DOWN) = 2097312 := by decide
  have hD : int_and 538968224 sampleKeyCodes.MP_KEY_STATE_DOWN = 536870912 := by decide
  have hT : Double.lt (Double.sub ⟨4621875412584313651⟩ ⟨4621819117588971520⟩)
      (Double.div (Double.ofInt 300) Double.thousand) = true := by decide
  have h := (mplayer_put_key_feeds sampleKeyCodes ⟨4621875412584313651⟩
    ⟨300, [], 2097312, ⟨4621819117588971520⟩⟩ 538968224).1 (by decide)
  rw [hA, hD] at h
  refine ⟨by decide, by decide, ?_, (h.2.2.1 (by decide)).1, (h.2.2.1 (by decide)).2⟩
  rw [h.1]
  simp [sampleKeyCodes, hT]

end Mpv
